import Mathlib

/-!
# The HTTP protocol handler of the sound server (`src/pulsecore/protocol-http.c`)

A shallow embedding of the pure parts of `protocol-http.c` (format negotiation,
MIME labelling, HTML escaping) and of its request parser as a state-passing
function, followed by the properties proved about them.

Conventions of the embedding

* C unsigned integers (`uint32_t rate`, `uint8_t channels`) are `Nat`; the code
  only ever stores constants into them, so no arithmetic can wrap.
* A `char *` is a `String`; its bytes are the list `String.data` (a C string holds no
  NUL byte, the end of the list is the terminator).
* A function that can abort on a `pa_assert` returns an `Option`; `none` is the
  abort.
-/

namespace ProtocolHttp

/-! ## Data model -/

/-- The sample formats of `pa_sample_format_t`, exactly the cases enumerated by the
`switch` of `mimefy_sample_spec` (which has no `default`). -/
inductive pa_sample_format_t where
  | PA_SAMPLE_U8
  | PA_SAMPLE_ALAW
  | PA_SAMPLE_ULAW
  | PA_SAMPLE_S16LE
  | PA_SAMPLE_S16BE
  | PA_SAMPLE_FLOAT32LE
  | PA_SAMPLE_FLOAT32BE
  | PA_SAMPLE_S32LE
  | PA_SAMPLE_S32BE
  | PA_SAMPLE_S24LE
  | PA_SAMPLE_S24BE
  | PA_SAMPLE_S24_32LE
  | PA_SAMPLE_S24_32BE
  | PA_SAMPLE_MAX
  | PA_SAMPLE_INVALID
  deriving DecidableEq, Repr

open pa_sample_format_t

/-- Channel positions. The file names only `MONO`, `LEFT` and `RIGHT`; `INVALID` is the
filler of an initialised map, and every further position of the enumeration is
`other k`. -/
inductive pa_channel_position_t where
  | PA_CHANNEL_POSITION_INVALID
  | PA_CHANNEL_POSITION_MONO
  | PA_CHANNEL_POSITION_LEFT
  | PA_CHANNEL_POSITION_RIGHT
  | other (k : Nat)
  deriving DecidableEq, Repr

open pa_channel_position_t

/-- The struct `pa_sample_spec`: format, rate in Hz, number of channels. -/
structure pa_sample_spec where
  format : pa_sample_format_t
  rate : Nat
  channels : Nat
  deriving DecidableEq, Repr

/-- The struct `pa_channel_map`: a channel count and the array `map[]` of positions.
Entry `i` of the array is read with `map_at`. -/
structure pa_channel_map where
  channels : Nat
  map : List pa_channel_position_t
  deriving DecidableEq, Repr

/-- The array read `cm->map[i]`. -/
def map_at (cm : pa_channel_map) (i : Nat) : pa_channel_position_t :=
  cm.map.getD i PA_CHANNEL_POSITION_INVALID

/-- The constant `PA_CHANNELS_MAX`, the length of the array `map[]`. -/
def PA_CHANNELS_MAX : Nat := 32

/-- Modelled from the spec: `pa_channel_map_compatible` lives in the channel-map
library, outside this file. A sample spec comes "plus a channel map"; the map fits
the spec when both describe the same number of channels. -/
def pa_channel_map_compatible (cm : pa_channel_map) (ss : pa_sample_spec) : Bool :=
  cm.channels == ss.channels

/-- Modelled from the spec: `pa_channel_map_init_auto` with `PA_CHANNEL_MAP_DEFAULT`
lives in the channel-map library, outside this file. "Channel map is re-derived from
channel count via the default layout": one channel is mono, two channels are
left/right; the rest of the array is the `INVALID` filler. `mimefy_sample_spec` caps
the count at 2 before the call, and the library asserts `channels > 0`, so every other
count is an abort here. -/
def pa_channel_map_init_auto (channels : Nat) : Option pa_channel_map :=
  match channels with
  | 1 => some
      { channels := 1
        map := (List.replicate PA_CHANNELS_MAX PA_CHANNEL_POSITION_INVALID).set 0
          PA_CHANNEL_POSITION_MONO }
  | 2 => some
      { channels := 2
        map := ((List.replicate PA_CHANNELS_MAX PA_CHANNEL_POSITION_INVALID).set 0
          PA_CHANNEL_POSITION_LEFT).set 1 PA_CHANNEL_POSITION_RIGHT }
  | _ => none

/-! ## Format negotiator -/

/-- The function `is_mime_sample_spec` (lines 259-304). `none` is the failed
`pa_assert(pa_channel_map_compatible(cm, ss))`. -/
def is_mime_sample_spec (ss : pa_sample_spec) (cm : pa_channel_map) : Option Bool :=
  if !pa_channel_map_compatible cm ss then none
  else
    match ss.format with
    | PA_SAMPLE_S16BE | PA_SAMPLE_S24BE | PA_SAMPLE_U8 =>
      if ss.rate != 8000 && ss.rate != 11025 && ss.rate != 16000 && ss.rate != 22050 &&
          ss.rate != 24000 && ss.rate != 32000 && ss.rate != 44100 && ss.rate != 48000 then
        some false
      else if ss.channels != 1 && ss.channels != 2 then
        some false
      else if (cm.channels == 1 && map_at cm 0 != PA_CHANNEL_POSITION_MONO) ||
          (cm.channels == 2 && (map_at cm 0 != PA_CHANNEL_POSITION_LEFT ||
            map_at cm 1 != PA_CHANNEL_POSITION_RIGHT)) then
        some false
      else
        some true
    | PA_SAMPLE_ULAW =>
      if ss.rate != 8000 then some false
      else if ss.channels != 1 then some false
      else if map_at cm 0 != PA_CHANNEL_POSITION_MONO then some false
      else some true
    | _ => some false

/-- The channel cap of `mimefy_sample_spec` (lines 314-315). -/
def mimefy_channels (channels : Nat) : Nat :=
  if channels > 2 then 2 else channels

/-- The rate ladder of `mimefy_sample_spec` (lines 317-332). -/
def mimefy_rate (rate : Nat) : Nat :=
  if rate > 44100 then 48000
  else if rate > 32000 then 44100
  else if rate > 24000 then 32000
  else if rate > 22050 then 24000
  else if rate > 16000 then 22050
  else if rate > 11025 then 16000
  else if rate > 8000 then 11025
  else 8000

/-- The format `switch` of `mimefy_sample_spec` (lines 334-367), run on the already
updated rate and channel count. `none` is `pa_assert_not_reached()`. -/
def mimefy_format (format : pa_sample_format_t) (rate channels : Nat) :
    Option pa_sample_format_t :=
  match format with
  | PA_SAMPLE_S24BE | PA_SAMPLE_S24LE | PA_SAMPLE_S24_32LE | PA_SAMPLE_S24_32BE
  | PA_SAMPLE_S32LE | PA_SAMPLE_S32BE | PA_SAMPLE_FLOAT32LE | PA_SAMPLE_FLOAT32BE =>
    some PA_SAMPLE_S24BE
  | PA_SAMPLE_S16BE | PA_SAMPLE_S16LE => some PA_SAMPLE_S16BE
  | PA_SAMPLE_ULAW | PA_SAMPLE_ALAW =>
    if rate == 8000 && channels == 1 then some PA_SAMPLE_ULAW else some PA_SAMPLE_S16BE
  | PA_SAMPLE_U8 => some PA_SAMPLE_U8
  | PA_SAMPLE_MAX | PA_SAMPLE_INVALID => none

/-- The function `mimefy_sample_spec` (lines 306-372): the in-place update of `*ss`
and `*cm`, returned as the new pair. `none` is an abort: the opening compatibility
assertion, `pa_assert_not_reached()`, an assertion inside `pa_channel_map_init_auto`,
or the closing `pa_assert(is_mime_sample_spec(ss, cm))`. -/
def mimefy_sample_spec (ss : pa_sample_spec) (cm : pa_channel_map) :
    Option (pa_sample_spec × pa_channel_map) :=
  if !pa_channel_map_compatible cm ss then none
  else
    let channels := mimefy_channels ss.channels
    let rate := mimefy_rate ss.rate
    match mimefy_format ss.format rate channels with
    | none => none
    | some format =>
      let ss1 : pa_sample_spec := { format := format, rate := rate, channels := channels }
      match pa_channel_map_init_auto ss1.channels with
      | none => none
      | some cm1 =>
        if is_mime_sample_spec ss1 cm1 = some true then some (ss1, cm1) else none

/-- The `printf` conversion `%u`. -/
def fmt_u (n : Nat) : String := toString n

/-- The function `sample_spec_to_mime_type` (lines 374-398). The outer `none` is an
abort (failed assertion), `some none` is the `NULL` return. -/
def sample_spec_to_mime_type (ss : pa_sample_spec) (cm : pa_channel_map) :
    Option (Option String) :=
  if !pa_channel_map_compatible cm ss then none
  else
    match is_mime_sample_spec ss cm with
    | none => none
    | some false => some none
    | some true =>
      match ss.format with
      | PA_SAMPLE_S16BE | PA_SAMPLE_S24BE | PA_SAMPLE_U8 =>
        some (some ("audio/" ++
          (if ss.format = PA_SAMPLE_S16BE then "L16"
            else (if ss.format = PA_SAMPLE_S24BE then "L24" else "L8")) ++
          "; rate=" ++ fmt_u ss.rate ++ "; channels=" ++ fmt_u ss.channels))
      | PA_SAMPLE_ULAW => some (some "audio/basic")
      | _ => none

/-- The function `mimefy_and_stringify_sample_spec` (lines 400-407). -/
def mimefy_and_stringify_sample_spec (ss : pa_sample_spec) (cm : pa_channel_map) :
    Option (Option String) :=
  match mimefy_sample_spec ss cm with
  | none => none
  | some (ss1, cm1) => sample_spec_to_mime_type ss1 cm1

/-! ## C string helpers -/

/-- The libc function `strcspn`: the length of the longest initial segment of `s` that
has no byte of `reject`. -/
def strcspn (s reject : String) : Nat :=
  (s.data.takeWhile (fun ch => !reject.data.contains ch)).length

/-- The helper `pa_startswith(s, pfx)`: `strncmp(s, pfx, strlen(pfx)) == 0`. -/
def pa_startswith (s pfx : String) : Bool :=
  pfx.data.isPrefixOf s.data

/-- The helper `pa_xstrndup(s, n)`: a copy of at most the first `n` bytes of `s`. -/
def pa_xstrndup (s : String) (n : Nat) : String :=
  ⟨s.data.take n⟩

/-- Pointer arithmetic `s + n` on a string known to have at least `n` bytes. -/
def str_advance (s : String) (n : Nat) : String :=
  ⟨s.data.drop n⟩

/-- The helper `pa_strbuf_putsn(sb, t + e, n)`: append `n` bytes of `t` starting at
offset `e` to the buffer. -/
def pa_strbuf_putsn (sb : List Char) (t : List Char) (e n : Nat) : List Char :=
  sb ++ (t.drop e).take n

/-! ## HTML/HTTP writer -/

/-- The loop of `escape_html` (lines 415-431). `t` is the whole input, the list
argument is what is left to scan from the cursor `p` on, `p` and `e` are the two
cursors as offsets into `t`, `sb` is the string buffer. The empty list is the
terminating NUL; the code after the loop (lines 433-434) runs there. -/
def escape_html_loop (t : List Char) : List Char → Nat → Nat → List Char → List Char
  | [], p, e, sb =>
    if p > e then pa_strbuf_putsn sb t e (p - e) else sb
  | ch :: rest, p, e, sb =>
    if ch = '>' ∨ ch = '<' ∨ ch = '&' then
      let sb1 := if p > e then pa_strbuf_putsn sb t e (p - e) else sb
      let e1 := if p > e then p + 1 else e
      let sb2 :=
        if ch = '>' then sb1 ++ "&gt;".data
        else if ch = '<' then sb1 ++ "&lt;".data
        else sb1 ++ "&amp;".data
      escape_html_loop t rest (p + 1) e1 sb2
    else
      escape_html_loop t rest (p + 1) e sb

/-- The function `escape_html` (lines 409-437). -/
def escape_html (t : String) : String :=
  ⟨escape_html_loop t.data t.data 0 0 []⟩

/-- What the specification says `escape_html` computes, byte by byte: "rewrites `<`,
`>`, `&` to entities; all other bytes pass through". -/
def spec_escape_chars : List Char → List Char
  | [] => []
  | ch :: rest =>
    (if ch = '<' then "&lt;".data
      else if ch = '>' then "&gt;".data
      else if ch = '&' then "&amp;".data
      else [ch]) ++ spec_escape_chars rest

/-- The specification of `escape_html` on strings. -/
def spec_escape_html (t : String) : String :=
  ⟨spec_escape_chars t.data⟩

/-- Standard HTML entity decoding restricted to `&lt;`, `&gt;` and `&amp;`, as the
specification's round-trip property uses it. -/
def spec_decode_chars : List Char → List Char
  | '&' :: 'l' :: 't' :: ';' :: rest => '<' :: spec_decode_chars rest
  | '&' :: 'g' :: 't' :: ';' :: rest => '>' :: spec_decode_chars rest
  | '&' :: 'a' :: 'm' :: 'p' :: ';' :: rest => '&' :: spec_decode_chars rest
  | ch :: rest => ch :: spec_decode_chars rest
  | [] => []

/-- Entity decoding on strings. -/
def spec_decode_html (t : String) : String :=
  ⟨spec_decode_chars t.data⟩

/-- The constant `MIME_HTML`. -/
def MIME_HTML : String := "text/html; charset=utf-8"

/-- The macro `HTML_HEADER(t)`. -/
def HTML_HEADER (t : String) : String :=
  "<?xml version=\"1.0\"?>\n" ++
  "<!DOCTYPE html PUBLIC \"-" ++ "//W3C//DTD XHTML 1.0 Strict//EN\" \"http://www.w3.org/TR/xhtml1/DTD/xhtml1-strict.dtd\">\n" ++
  "<html xmlns=\"http://www.w3.org/1999/xhtml\">\n" ++
  "        <head>\n" ++
  "                <title>" ++ t ++ "</title>\n" ++
  "                <link rel=\"stylesheet\" type=\"text/css\" href=\"style\"/>\n" ++
  "        </head>\n" ++
  "        <body>\n"

/-- The macro `HTML_FOOTER`. -/
def HTML_FOOTER : String :=
  "        </body>\n" ++
  "</html>\n"

/-! ## Connections and the request parser -/

/-- The parser states, `enum state`. -/
inductive state where
  | STATE_REQUEST_LINE
  | STATE_MIME_HEADER
  | STATE_DATA
  deriving DecidableEq, Repr

open state

/-- What a connection does to the outside world, in the order it happens: writes to
its line reader, the deferred close, and the calls of the page handlers (whose bodies
talk to the audio core and are not unfolded here). -/
inductive action where
  | ioline_puts (s : String)
  | ioline_defer_close
  | connection_unlink
  | handle_root
  | handle_css
  | handle_status
  | handle_listen
  | handle_listen_prefix (source_name : String)
  deriving DecidableEq, Repr

open action

/-- The fields of `struct connection` the parser reads and writes: `state`, `url`
(`none` is the `NULL` of `pa_xnew0`), and the log of the actions taken so far. -/
structure connection where
  state : state
  url : Option String
  log : List action
  deriving DecidableEq, Repr

/-- The connection as `pa_http_protocol_connect` sets it up (lines 801-803):
zero-filled, state `STATE_REQUEST_LINE`. -/
def new_connection : connection :=
  { state := STATE_REQUEST_LINE, url := none, log := [] }

/-- The text `http_response` writes (lines 451-458). `PACKAGE_NAME` and
`PACKAGE_VERSION` come from the build configuration. -/
def http_response_text (PACKAGE_NAME PACKAGE_VERSION : String) (code : Int)
    (msg mime : String) : String :=
  "HTTP/1.0 " ++ toString code ++ " " ++ msg ++ "\n" ++
  "Connection: close\n" ++
  "Content-Type: " ++ mime ++ "\n" ++
  "Cache-Control: no-cache\n" ++
  "Expires: 0\n" ++
  "Server: " ++ PACKAGE_NAME ++ "/" ++ PACKAGE_VERSION ++ "\n" ++
  "\n"

/-- The function `http_response` (lines 439-461). -/
def http_response (PACKAGE_NAME PACKAGE_VERSION : String) (c : connection) (code : Int)
    (msg mime : String) : connection :=
  { c with log := c.log ++
      [ioline_puts (http_response_text PACKAGE_NAME PACKAGE_VERSION code msg mime)] }

/-- The function `html_response` (lines 463-487); `text = none` is the `NULL`
argument, replaced by `msg`. -/
def html_response (PACKAGE_NAME PACKAGE_VERSION : String) (c : connection) (code : Int)
    (msg : String) (text : Option String) : connection :=
  let c1 := http_response PACKAGE_NAME PACKAGE_VERSION c code msg MIME_HTML
  let text1 := match text with
    | none => msg
    | some t => t
  let s := HTML_HEADER text1 ++ text1 ++ HTML_FOOTER
  { c1 with log := c1.log ++ [ioline_puts s, ioline_defer_close] }

/-- The function `handle_url` (lines 721-738). Each page handler is recorded as one
action; the 404 reply is written out. `none` is the crash of `pa_streq` on a `NULL`
url. -/
def handle_url (PACKAGE_NAME PACKAGE_VERSION : String) (c : connection) :
    Option connection :=
  match c.url with
  | none => none
  | some url =>
    if url = "/" then some { c with log := c.log ++ [handle_root] }
    else if url = "/style" then some { c with log := c.log ++ [handle_css] }
    else if url = "/status" then some { c with log := c.log ++ [handle_status] }
    else if url = "/listen" then some { c with log := c.log ++ [handle_listen] }
    else if pa_startswith url "/listen/source/" then
      some { c with log := c.log ++
        [ handle_listen_prefix (str_advance url ("/listen/source/".length + 1 - 1))] }
    else some (html_response PACKAGE_NAME PACKAGE_VERSION c 404 "Not Found" none)

/-- The function `line_callback` (lines 740-784). `s = none` is the `NULL` line of an
EOF. The result `none` is a crash inside `handle_url`. -/
def line_callback (PACKAGE_NAME PACKAGE_VERSION : String) (s : Option String)
    (c : connection) : Option connection :=
  match s with
  | none => some { c with log := c.log ++ [connection_unlink] }
  | some s =>
    match c.state with
    | STATE_REQUEST_LINE =>
      if !pa_startswith s "GET " then
        some (html_response PACKAGE_NAME PACKAGE_VERSION c 500 "Internal Server Error" none)
      else
        let s1 := str_advance s 4
        some { c with url := some (pa_xstrndup s1 (strcspn s1 " \r\n\t?")),
                      state := STATE_MIME_HEADER }
    | STATE_MIME_HEADER =>
      if strcspn s " \r\n" != 0 then some c
      else handle_url PACKAGE_NAME PACKAGE_VERSION { c with state := STATE_DATA }
    | STATE_DATA => some c

/-- Feeding a sequence of (non-EOF) lines to `line_callback`, one call per line, as
the line reader does. -/
def feed_lines (PACKAGE_NAME PACKAGE_VERSION : String) :
    connection → List String → Option connection
  | c, [] => some c
  | c, s :: rest =>
    match line_callback PACKAGE_NAME PACKAGE_VERSION (some s) c with
    | none => none
    | some c1 => feed_lines PACKAGE_NAME PACKAGE_VERSION c1 rest

/-! ## Vocabulary of the parser properties -/

/-- The bytes that end the url token: the reject set of the `strcspn` call in state
`STATE_REQUEST_LINE`. -/
def url_stops : List Char := [' ', '\r', '\n', '\t', '?']

/-- A line the specification calls empty: it consists "only of whitespace/CRLF", that
is every byte of it (if any) is a space, CR or LF. -/
def spec_empty_line (s : String) : Bool :=
  s.data.all (fun ch => ch == ' ' || ch == '\r' || ch == '\n')

/-- A line that has no bytes or begins with a space, CR or LF. -/
def starts_blank (s : String) : Bool :=
  match s.data with
  | [] => true
  | ch :: _ => ch == ' ' || ch == '\r' || ch == '\n'

/-- The sequence has a line starting with `GET ` that is followed, later, by a line
satisfying `p`. -/
def get_then (p : String → Bool) : List String → Bool
  | [] => false
  | s :: rest => (pa_startswith s "GET " && rest.any p) || get_then p rest

/-- The url that line 758 stores for the request line `g`: the bytes after the first
four, up to the first space, CR, LF, tab or `?`. -/
def request_url (g : String) : String :=
  pa_xstrndup (str_advance g 4) (strcspn (str_advance g 4) " \r\n\t?")

/-- The three bytes `escape_html` rewrites. -/
def html_special (ch : Char) : Bool := ch == '>' || ch == '<' || ch == '&'

/-- No special byte of the list stands right after another special byte; when the flag
is set (nothing, or a special byte, precedes the list) none stands first either. -/
def specials_separated : Bool → List Char → Bool
  | _, [] => true
  | after_special, ch :: rest =>
    if html_special ch then !after_special && specials_separated true rest
    else specials_separated false rest

/-! ## The connection object, the protocol handle and the audio-to-socket bridge -/

/-- The constant `MAX_CONNECTIONS`. -/
def MAX_CONNECTIONS : Nat := 10

/-- The constant `RECORD_BUFFER_SECONDS`. -/
def RECORD_BUFFER_SECONDS : Nat := 5

/-- Modelled from the spec: the memory block queue lives in the core, outside this file.
It is "a bounded FIFO of refcounted sample chunks with ... byte-granular drop": a
maximum length in bytes and the queued chunks, oldest first, each chunk being the list
of its bytes. -/
structure pa_memblockq where
  maxlength : Nat
  chunks : List (List Nat)
  deriving DecidableEq, Repr

/-- Modelled from the spec: `pa_memblockq_get_length`, "the backlog currently resident
in the output queue", in bytes. -/
def pa_memblockq_get_length (q : pa_memblockq) : Nat :=
  q.chunks.flatten.length

/-- Modelled from the spec: `pa_memblockq_peek`, "peek the next chunk from the queue";
`none` is the negative return on an empty queue ("the peek yields nothing"). -/
def pa_memblockq_peek (q : pa_memblockq) : Option (List Nat) :=
  q.chunks.head?

/-- Removing `n` bytes from the front of a list of chunks. -/
def drop_bytes : List (List Nat) → Nat → List (List Nat)
  | [], _ => []
  | chunk :: rest, n =>
    if n < chunk.length then chunk.drop n :: rest
    else drop_bytes rest (n - chunk.length)

/-- Modelled from the spec: `pa_memblockq_drop`, "`drop(r)` bytes from the queue (leaves
the tail for the next writable notification)". -/
def pa_memblockq_drop (q : pa_memblockq) (n : Nat) : pa_memblockq :=
  { q with chunks := drop_bytes q.chunks n }

/-- Whether a chunk still fits into the queue. -/
def pa_memblockq_fits (q : pa_memblockq) (chunk : List Nat) : Bool :=
  pa_memblockq_get_length q + chunk.length ≤ q.maxlength

/-- Modelled from the spec: `pa_memblockq_push_align` appends the chunk to the queue.
The behaviour at overflow "is inherited from the memory block queue"; here the chunk
that does not fit is not queued. -/
def pa_memblockq_push_align (q : pa_memblockq) (chunk : List Nat) : pa_memblockq :=
  if pa_memblockq_fits q chunk then { q with chunks := q.chunks ++ [chunk] } else q

/-- Modelled from the spec: `pa_sample_size`, the bytes of one sample of a format. -/
def pa_sample_size (format : pa_sample_format_t) : Nat :=
  match format with
  | PA_SAMPLE_U8 | PA_SAMPLE_ALAW | PA_SAMPLE_ULAW => 1
  | PA_SAMPLE_S16LE | PA_SAMPLE_S16BE => 2
  | PA_SAMPLE_S24LE | PA_SAMPLE_S24BE => 3
  | PA_SAMPLE_S24_32LE | PA_SAMPLE_S24_32BE | PA_SAMPLE_S32LE | PA_SAMPLE_S32BE
  | PA_SAMPLE_FLOAT32LE | PA_SAMPLE_FLOAT32BE => 4
  | PA_SAMPLE_MAX | PA_SAMPLE_INVALID => 0

/-- Modelled from the spec: `pa_frame_size`, bytes per sample times channels. -/
def pa_frame_size (ss : pa_sample_spec) : Nat :=
  pa_sample_size ss.format * ss.channels

/-- Modelled from the spec: `pa_bytes_per_second`, "rate × channels ×
bytes-per-sample". -/
def pa_bytes_per_second (ss : pa_sample_spec) : Nat :=
  ss.rate * pa_frame_size ss

/-- The output queue `handle_listen_prefix` allocates for the coerced spec `ss` (lines
696-705): maximum length `pa_bytes_per_second(&ss) * RECORD_BUFFER_SECONDS`, empty. -/
def new_output_memblockq (ss : pa_sample_spec) : pa_memblockq :=
  { maxlength := pa_bytes_per_second ss * RECORD_BUFFER_SECONDS, chunks := [] }

/-- The calls a connection or the protocol makes on its collaborators, in order.
Handles (iochannels, line readers, clients, source outputs, modules) are numbers. -/
inductive effect where
  | pa_log_warning
  | pa_log_write_error
  | pa_iochannel_free (io : Nat)
  | pa_iochannel_write (io : Nat) (accepted : List Nat)
  | pa_iochannel_set_callback (io : Nat)
  | pa_iochannel_socket_set_sndbuf (io : Nat) (size : Nat)
  | pa_ioline_new (io : Nat)
  | pa_ioline_detach_iochannel (line : Nat)
  | pa_ioline_unref (line : Nat)
  | pa_client_new (client : Nat)
  | pa_client_free (client : Nat)
  | pa_source_output_unlink (o : Nat)
  | pa_source_output_unref (o : Nat)
  | pa_source_output_process_msg
  | pa_memblockq_free
  | pa_xfree (c : Nat)
  deriving DecidableEq, Repr

open effect

/-- All fields of `struct connection` but the back pointer to the protocol (which the
functions below take as an argument). `id` is the address of the struct, its identity
in the protocol's set. A line reader is named by the iochannel it was created on. -/
structure struct_connection where
  id : Nat
  io : Option Nat
  line : Option Nat
  output_memblockq : Option pa_memblockq
  source_output : Option Nat
  client : Option Nat
  state : state
  url : Option String
  module : Nat
  deriving DecidableEq, Repr

/-- The struct `pa_http_protocol`: reference count and the set of connections, in
insertion order. -/
structure pa_http_protocol where
  refcnt : Nat
  connections : List struct_connection
  deriving DecidableEq, Repr

/-- Modelled from the spec: `pa_idxset_put`; a pointer that is already in the set is not
added again. -/
def pa_idxset_put (set : List struct_connection) (c : struct_connection) :
    List struct_connection :=
  if set.any (fun x => x.id == c.id) then set else set ++ [c]

/-- Modelled from the spec: `pa_idxset_remove_by_data`, removal of the entry with the
given address (none if it is not in the set). -/
def pa_idxset_remove_by_data (set : List struct_connection) (id : Nat) :
    List struct_connection :=
  set.filter (fun x => x.id != id)

/-- The struct behind a pointer is shared between the set and the callbacks: after a
callback has updated a connection, the set sees the updated struct. -/
def store_connection (p : pa_http_protocol) (c : struct_connection) : pa_http_protocol :=
  { p with connections := p.connections.map (fun x => if x.id = c.id then c else x) }

/-- The function `connection_unlink` (lines 106-131): the new protocol and the calls
made. -/
def connection_unlink (p : pa_http_protocol) (c : struct_connection) :
    pa_http_protocol × List effect :=
  ({ p with connections := pa_idxset_remove_by_data p.connections c.id },
   (match c.source_output with
    | some o => [pa_source_output_unlink o, pa_source_output_unref o]
    | none => []) ++
   (match c.client with
    | some cl => [pa_client_free cl]
    | none => []) ++
   (match c.line with
    | some l => [pa_ioline_unref l]
    | none => []) ++
   (match c.io with
    | some io => [pa_iochannel_free io]
    | none => []) ++
   (match c.output_memblockq with
    | some _ => [pa_memblockq_free]
    | none => []) ++
   [pa_xfree c.id])

/-- The error numbers `do_write` tells apart. -/
inductive errno_t where
  | EINTR
  | EAGAIN
  | other (code : Nat)
  deriving DecidableEq, Repr

open errno_t

/-- What the non-blocking socket does with one write: it has room for some number of
bytes, or the write fails with an error number. -/
inductive write_outcome where
  | accepts (room : Nat)
  | fails (e : errno_t)
  deriving DecidableEq, Repr

open write_outcome

/-- The function `do_write` (lines 134-165): return value, updated connection, calls
made. On success the socket took `r` bytes of the head chunk, `r` being the room the
socket had, at most the chunk length asked for. `none` is a crash: no queue, no
iochannel, or the failed `pa_assert(chunk.length > 0)`. -/
def do_write (c : struct_connection) (w : write_outcome) :
    Option (Int × struct_connection × List effect) :=
  match c.output_memblockq with
  | none => none
  | some q =>
    match pa_memblockq_peek q with
    | none => some (0, c, [])
    | some chunk =>
      if chunk.length = 0 then none
      else
        match c.io with
        | none => none
        | some io =>
          match w with
          | fails e =>
            if e = EINTR ∨ e = EAGAIN then some (0, c, [pa_iochannel_write io []])
            else some (-1, c, [pa_iochannel_write io [], pa_log_write_error])
          | accepts room =>
            let r := min room chunk.length
            some (0, { c with output_memblockq := some (pa_memblockq_drop q r) },
              [pa_iochannel_write io (chunk.take r)])

/-- The function `do_work` (lines 168-182). `hungup` and `writable` are what the
iochannel reports. The connection in the result is `none` after `goto fail`, that is
after `connection_unlink`. The outer `none` is a crash: no iochannel to ask, or a crash
of `do_write`. -/
def do_work (p : pa_http_protocol) (c : struct_connection) (hungup writable : Bool)
    (w : write_outcome) :
    Option (pa_http_protocol × Option struct_connection × List effect) :=
  match c.io with
  | none => none
  | some _ =>
    if hungup then
      some ((connection_unlink p c).1, none, (connection_unlink p c).2)
    else if writable then
      match do_write c w with
      | none => none
      | some (ret, c1, eff) =>
        if ret < 0 then
          some ((connection_unlink p c1).1, none, eff ++ (connection_unlink p c1).2)
        else some (store_connection p c1, some c1, eff)
    else some (p, some c, [])

/-- The message codes of `source_output_process_msg`. -/
inductive message_code where
  | SOURCE_OUTPUT_MESSAGE_POST_DATA
  | other (code : Nat)
  deriving DecidableEq, Repr

open message_code

/-- The function `source_output_process_msg` (lines 185-206) for the connection `c` its
source output belongs to; every other code goes to the core's handler. `none` is a
crash (no queue). -/
def source_output_process_msg (p : pa_http_protocol) (c : struct_connection)
    (code : message_code) (chunk : List Nat) (hungup writable : Bool)
    (w : write_outcome) :
    Option (pa_http_protocol × Option struct_connection × List effect) :=
  match code with
  | SOURCE_OUTPUT_MESSAGE_POST_DATA =>
    match c.output_memblockq with
    | none => none
    | some q =>
      do_work p { c with output_memblockq := some (pa_memblockq_push_align q chunk) }
        hungup writable w
  | message_code.other _ => some (p, some c, [pa_source_output_process_msg])

/-- The function `io_callback` (lines 250-257). -/
def io_callback (p : pa_http_protocol) (c : struct_connection) (hungup writable : Bool)
    (w : write_outcome) :
    Option (pa_http_protocol × Option struct_connection × List effect) :=
  do_work p c hungup writable w

/-- The function `line_drain_callback` (lines 630-645). `none` is a crash: no line
reader to detach from, or no queue. -/
def line_drain_callback (c : struct_connection) :
    Option (struct_connection × List effect) :=
  match c.line with
  | none => none
  | some l =>
    match c.output_memblockq with
    | none => none
    | some q =>
      some ({ c with io := some l, line := none },
        [pa_ioline_detach_iochannel l, pa_iochannel_set_callback l,
         pa_iochannel_socket_set_sndbuf l (pa_memblockq_get_length q),
         pa_ioline_unref l])

/-- The function `pa_http_protocol_connect` (lines 786-831). `addr` is the address
`pa_xnew0` returns, `client` what `pa_client_new` returns (`none` is `NULL`). -/
def pa_http_protocol_connect (p : pa_http_protocol) (io m addr : Nat)
    (client : Option Nat) : pa_http_protocol × List effect :=
  if p.connections.length + 1 > MAX_CONNECTIONS then
    (p, [pa_log_warning, pa_iochannel_free io])
  else
    let c : struct_connection :=
      { id := addr, io := none, line := some io, output_memblockq := none,
        source_output := none, client := none, state := STATE_REQUEST_LINE, url := none,
        module := m }
    match client with
    | none => ((connection_unlink p c).1, pa_ioline_new io :: (connection_unlink p c).2)
    | some cl =>
      ({ p with connections := pa_idxset_put p.connections { c with client := some cl } },
        [pa_ioline_new io, pa_client_new cl])

/-- The function `pa_http_protocol_disconnect` (lines 833-843): every connection of the
set, in turn, is unlinked if its module is `m`. -/
def pa_http_protocol_disconnect (p : pa_http_protocol) (m : Nat) :
    pa_http_protocol × List effect :=
  p.connections.foldl
    (fun acc c =>
      if c.module = m then ((connection_unlink acc.1 c).1, acc.2 ++ (connection_unlink acc.1 c).2)
      else acc)
    (p, [])

/-- The loop `while ((c = pa_idxset_first(...))) connection_unlink(c);` of
`pa_http_protocol_unref` (lines 887-888), run for at most `fuel` rounds; `none` if the
set is not empty by then. -/
def unlink_all : Nat → pa_http_protocol → Option (pa_http_protocol × List effect)
  | fuel, p =>
    match p.connections.head? with
    | none => some (p, [])
    | some c =>
      match fuel with
      | 0 => none
      | fuel1 + 1 =>
        match unlink_all fuel1 (connection_unlink p c).1 with
        | none => none
        | some (p1, eff) => some (p1, (connection_unlink p c).2 ++ eff)

/-- Modelled from the spec: the core with its shared registry ("registered under a
well-known name in the core's shared registry") and the memory that holds the protocol
handles, by address. -/
structure pa_core where
  shared : String → Option Nat
  protocols : Nat → Option pa_http_protocol

/-- Modelled from the spec: `pa_shared_get`, the pointer registered under a name. -/
def pa_shared_get (c : pa_core) (name : String) : Option Nat :=
  c.shared name

/-- Modelled from the spec: `pa_shared_set`; `none` is the negative return when the name
is taken. -/
def pa_shared_set (c : pa_core) (name : String) (p : Nat) : Option pa_core :=
  if (c.shared name).isSome then none
  else some { c with shared := Function.update c.shared name (some p) }

/-- Modelled from the spec: `pa_shared_remove`; `none` is the negative return when the
name is not registered. -/
def pa_shared_remove (c : pa_core) (name : String) : Option pa_core :=
  if (c.shared name).isSome then
    some { c with shared := Function.update c.shared name none }
  else none

/-- The function `http_protocol_new` (lines 845-858); `addr` is the address `pa_xnew`
returns. `none` is the failed `pa_assert_se(pa_shared_set(...) >= 0)`. -/
def http_protocol_new (c : pa_core) (addr : Nat) : Option (pa_core × Nat) :=
  let c1 : pa_core :=
    { c with
      protocols :=
        Function.update c.protocols addr (some { refcnt := 1, connections := [] }) }
  match pa_shared_set c1 "http-protocol" addr with
  | none => none
  | some c2 => some (c2, addr)

/-- The function `pa_http_protocol_ref` (lines 869-876). `none` is a failed
assertion. -/
def pa_http_protocol_ref (c : pa_core) (p : Nat) : Option (pa_core × Nat) :=
  match c.protocols p with
  | none => none
  | some h =>
    if h.refcnt ≥ 1 then
      some ({ c with
              protocols :=
                Function.update c.protocols p (some { h with refcnt := h.refcnt + 1 }) }, p)
    else none

/-- The function `pa_http_protocol_get` (lines 860-867). -/
def pa_http_protocol_get (c : pa_core) (addr : Nat) : Option (pa_core × Nat) :=
  match pa_shared_get c "http-protocol" with
  | some p => pa_http_protocol_ref c p
  | none => http_protocol_new c addr

/-- The function `pa_http_protocol_unref` (lines 878-895): the new core and the calls
made. `none` is a failed assertion. -/
def pa_http_protocol_unref (c : pa_core) (p : Nat) : Option (pa_core × List effect) :=
  match c.protocols p with
  | none => none
  | some h =>
    if h.refcnt ≥ 1 then
      if h.refcnt - 1 > 0 then
        some ({ c with
                protocols :=
                  Function.update c.protocols p (some { h with refcnt := h.refcnt - 1 }) },
              [])
      else
        match unlink_all h.connections.length { h with refcnt := h.refcnt - 1 } with
        | none => none
        | some (_, eff) =>
          match pa_shared_remove c "http-protocol" with
          | none => none
          | some c1 =>
            some ({ c1 with protocols := Function.update c1.protocols p none }, eff)
    else none

/-- The operations that change the protocol's set, as the main loop issues them. -/
inductive protocol_op where
  | connect (io m addr : Nat) (client : Option Nat)
  | unlink (id : Nat)
  | disconnect (m : Nat)
  deriving DecidableEq, Repr

/-- One operation on the protocol. An unlink names a connection by address; only a
live connection, one in the set, can be unlinked. -/
def apply_op (p : pa_http_protocol) : protocol_op → pa_http_protocol
  | protocol_op.connect io m addr client => (pa_http_protocol_connect p io m addr client).1
  | protocol_op.unlink id =>
    match p.connections.find? (fun x => x.id == id) with
    | none => p
    | some c => (connection_unlink p c).1
  | protocol_op.disconnect m => (pa_http_protocol_disconnect p m).1

/-- A sequence of operations, from left to right. -/
def apply_ops (p : pa_http_protocol) (ops : List protocol_op) : pa_http_protocol :=
  ops.foldl apply_op p

/-- The streaming state of one connection as the main thread sees it: the protocol,
the connection (`none` once it is unlinked), all calls made so far, and whether some
pushed chunk did not fit into the queue. -/
structure bridge where
  p : pa_http_protocol
  c : Option struct_connection
  out : List effect
  overflowed : Bool
  deriving DecidableEq, Repr

/-- What the main loop delivers to a streaming connection: a `POST_DATA` message with
a chunk, or a readiness notification of the iochannel; each with what the iochannel
reports and what the socket does with a write. -/
inductive bridge_event where
  | post_data (chunk : List Nat) (hungup writable : Bool) (w : write_outcome)
  | io_ready (hungup writable : Bool) (w : write_outcome)
  deriving DecidableEq, Repr

/-- One delivery. Nothing is delivered to a connection that is gone. -/
def bridge_step (b : bridge) (e : bridge_event) : Option bridge :=
  match b.c with
  | none => some b
  | some c =>
    match e with
    | bridge_event.post_data chunk hungup writable w =>
      match source_output_process_msg b.p c SOURCE_OUTPUT_MESSAGE_POST_DATA chunk hungup
          writable w with
      | none => none
      | some (p1, c1, eff) =>
        some { p := p1, c := c1, out := b.out ++ eff,
               overflowed := b.overflowed ||
                 (match c.output_memblockq with
                  | some q => !pa_memblockq_fits q chunk
                  | none => false) }
    | bridge_event.io_ready hungup writable w =>
      match io_callback b.p c hungup writable w with
      | none => none
      | some (p1, c1, eff) => some { b with p := p1, c := c1, out := b.out ++ eff }

/-- A sequence of deliveries, from left to right. -/
def bridge_run : bridge → List bridge_event → Option bridge
  | b, [] => some b
  | b, e :: rest =>
    match bridge_step b e with
    | none => none
    | some b1 => bridge_run b1 rest

/-- The bytes the socket accepted, in order. -/
def bytes_written : List effect → List Nat
  | [] => []
  | pa_iochannel_write _ accepted :: rest => accepted ++ bytes_written rest
  | _ :: rest => bytes_written rest

/-- The bytes pushed by the audio thread, in push order. -/
def bytes_pushed : List bridge_event → List Nat
  | [] => []
  | bridge_event.post_data chunk _ _ _ :: rest => chunk ++ bytes_pushed rest
  | bridge_event.io_ready _ _ _ :: rest => bytes_pushed rest

/-! ## Vocabulary of the protocol and write-pump properties -/

/-- A set of ten connections, with addresses 0 to 9. -/
def ten_connections : List struct_connection :=
  (List.range 10).map (fun k =>
    { id := k, io := none, line := some (100 + k), output_memblockq := none,
      source_output := none, client := some (200 + k), state := STATE_REQUEST_LINE,
      url := none, module := 1 })

/-- The core with nothing registered and no protocol handle in memory. -/
def empty_core : pa_core :=
  { shared := fun _ => none, protocols := fun _ => none }

/-- A core whose registry names the handle at address 7, which has one reference and
the first two of the ten connections. -/
def registered_core : pa_core :=
  { shared := Function.update (fun _ => none) "http-protocol" (some 7),
    protocols := Function.update (fun _ => none) 7
      (some { refcnt := 1, connections := ten_connections.take 2 }) }

/-- A queue is well formed when it holds no empty chunk (`pa_memblockq_push` never
queues one; `do_write` asserts it of the chunk it peeks). -/
def queue_wf (q : pa_memblockq) : Prop :=
  ∀ chunk ∈ q.chunks, chunk ≠ []

/-- A delivery is well formed when the chunk it carries is not empty. -/
def event_wf : bridge_event → Prop
  | bridge_event.post_data chunk _ _ _ => chunk ≠ []
  | bridge_event.io_ready _ _ _ => True

/-- A streaming state is well formed when its connection, if still there, has an
iochannel and a well-formed queue. -/
def bridge_wf (b : bridge) : Prop :=
  ∀ c, b.c = some c → ∃ q io, c.output_memblockq = some q ∧ c.io = some io ∧ queue_wf q

/-- A streaming connection in binary mode: iochannel 5, a queue of capacity 16 that
holds the chunks `1 2 3` and `4 5`. -/
def sample_stream : struct_connection :=
  { id := 1, io := some 5, line := none,
    output_memblockq := some { maxlength := 16, chunks := [[1, 2, 3], [4, 5]] },
    source_output := some 9, client := some 3, state := STATE_DATA,
    url := some "/listen/source/mic", module := 1 }

/-- The connection of a request for a mono 44100 Hz 16-bit source at the end of
`handle_listen_prefix`, the line already drained: line reader on iochannel 5, the
freshly allocated queue. -/
def fresh_stream : struct_connection :=
  { id := 1, io := none, line := some 5,
    output_memblockq := some (new_output_memblockq ⟨PA_SAMPLE_S16BE, 44100, 1⟩),
    source_output := some 9, client := some 3, state := STATE_DATA,
    url := some "/listen/source/mic", module := 1 }

/-! ## Properties of the format negotiator -/

/-- The eight rates `is_mime_sample_spec` accepts for the PCM formats. -/
def mime_rates : List Nat := [8000, 11025, 16000, 22050, 24000, 32000, 44100, 48000]

/-- The part of `mimefy_sample_spec` after the channel cap and the rate ladder, as a
function of the three updated fields. -/
def mimefy_tail (format : pa_sample_format_t) (rate channels : Nat) :
    Option (pa_sample_spec × pa_channel_map) :=
  match mimefy_format format rate channels with
  | none => none
  | some format1 =>
    match pa_channel_map_init_auto channels with
    | none => none
    | some cm1 =>
      if is_mime_sample_spec ⟨format1, rate, channels⟩ cm1 = some true then
        some (⟨format1, rate, channels⟩, cm1)
      else none

theorem mimefy_sample_spec_eq_tail (ss : pa_sample_spec) (cm : pa_channel_map)
    (hc : pa_channel_map_compatible cm ss = true) :
    mimefy_sample_spec ss cm =
      mimefy_tail ss.format (mimefy_rate ss.rate) (mimefy_channels ss.channels) := by
  simp [mimefy_sample_spec, mimefy_tail, hc]

theorem mimefy_channels_cases (c : Nat) (h : 1 ≤ c) :
    mimefy_channels c = 1 ∨ mimefy_channels c = 2 := by
  unfold mimefy_channels
  split_ifs <;> omega

theorem mimefy_rate_mem (r : Nat) : mimefy_rate r ∈ mime_rates := by
  unfold mimefy_rate mime_rates
  split_ifs <;> simp

theorem mimefy_rate_fixed (r : Nat) (h : r ∈ mime_rates) : mimefy_rate r = r := by
  simp only [mime_rates, List.mem_cons, List.mem_singleton, List.not_mem_nil, or_false] at h
  rcases h with h | h | h | h | h | h | h | h <;> subst h <;> decide

theorem mimefy_channels_fixed (c : Nat) (h : c = 1 ∨ c = 2) : mimefy_channels c = c := by
  rcases h with h | h <;> subst h <;> decide

/-- On a real format, an accepted rate and one or two channels, the tail of
`mimefy_sample_spec` returns, its result is accepted by `is_mime_sample_spec`, and it is
a fixed point of `mimefy_sample_spec`. -/
theorem mimefy_tail_spec (f : pa_sample_format_t) (r c : Nat)
    (hf1 : f ≠ PA_SAMPLE_MAX) (hf2 : f ≠ PA_SAMPLE_INVALID)
    (hr : r ∈ mime_rates) (hcs : c = 1 ∨ c = 2) :
    ∃ f1 cm1, mimefy_tail f r c = some (⟨f1, r, c⟩, cm1) ∧
      mimefy_format f r c = some f1 ∧
      pa_channel_map_init_auto c = some cm1 ∧
      is_mime_sample_spec ⟨f1, r, c⟩ cm1 = some true ∧
      mimefy_sample_spec ⟨f1, r, c⟩ cm1 = some (⟨f1, r, c⟩, cm1) := by
  simp only [mime_rates, List.mem_cons, List.mem_singleton, List.not_mem_nil, or_false] at hr
  rcases hcs with hcs | hcs <;> subst hcs <;>
  rcases hr with hr | hr | hr | hr | hr | hr | hr | hr <;> subst hr <;>
  cases f <;> first | exact absurd rfl hf1 | exact absurd rfl hf2 | exact ⟨_, _, rfl, rfl, rfl, by decide, by decide⟩

/-- Under the precondition, `mimefy_sample_spec` returns the spec with the capped
channel count, the rate of the ladder and the format of the `switch`, together with the
default map of the capped count; that result is accepted by `is_mime_sample_spec`
and is a fixed point. -/
theorem mimefy_sample_spec_result (ss : pa_sample_spec) (cm : pa_channel_map)
    (hf1 : ss.format ≠ PA_SAMPLE_MAX) (hf2 : ss.format ≠ PA_SAMPLE_INVALID)
    (hch : 1 ≤ ss.channels) (hc : pa_channel_map_compatible cm ss = true) :
    ∃ f1 cm1,
      mimefy_sample_spec ss cm =
        some (⟨f1, mimefy_rate ss.rate, mimefy_channels ss.channels⟩, cm1) ∧
      mimefy_format ss.format (mimefy_rate ss.rate) (mimefy_channels ss.channels) = some f1 ∧
      pa_channel_map_init_auto (mimefy_channels ss.channels) = some cm1 ∧
      is_mime_sample_spec ⟨f1, mimefy_rate ss.rate, mimefy_channels ss.channels⟩ cm1
        = some true ∧
      mimefy_sample_spec ⟨f1, mimefy_rate ss.rate, mimefy_channels ss.channels⟩ cm1 =
        some (⟨f1, mimefy_rate ss.rate, mimefy_channels ss.channels⟩, cm1) := by
  rw [mimefy_sample_spec_eq_tail ss cm hc]
  exact mimefy_tail_spec ss.format _ _ hf1 hf2 (mimefy_rate_mem _) (mimefy_channels_cases _ hch)

/-- C1: for every sample spec with a real format (neither `MAX` nor `INVALID`), at
least one channel and a compatible channel map, `mimefy_sample_spec` returns (none of
its assertions fails, the closing one included) and the spec and map it produces
satisfy `is_mime_sample_spec`. -/
theorem C1_mimefy_result_is_mime (ss : pa_sample_spec) (cm : pa_channel_map)
    (hf1 : ss.format ≠ PA_SAMPLE_MAX) (hf2 : ss.format ≠ PA_SAMPLE_INVALID)
    (hch : 1 ≤ ss.channels) (hc : pa_channel_map_compatible cm ss = true) :
    ∃ ss1 cm1, mimefy_sample_spec ss cm = some (ss1, cm1) ∧
      is_mime_sample_spec ss1 cm1 = some true := by
  obtain ⟨f1, cm1, h1, -, -, h4, -⟩ := mimefy_sample_spec_result ss cm hf1 hf2 hch hc
  exact ⟨_, cm1, h1, h4⟩

/-- C1 at a stereo 96 kHz float source with a six-entry map tail. -/
theorem C1_mimefy_result_is_mime_witness :
    ∃ ss1 cm1,
      mimefy_sample_spec ⟨PA_SAMPLE_FLOAT32LE, 96000, 6⟩
        ⟨6, [PA_CHANNEL_POSITION_LEFT, PA_CHANNEL_POSITION_RIGHT, other 3, other 4, other 5,
          other 6]⟩ = some (ss1, cm1) ∧
      is_mime_sample_spec ss1 cm1 = some true :=
  C1_mimefy_result_is_mime ⟨PA_SAMPLE_FLOAT32LE, 96000, 6⟩
    ⟨6, [PA_CHANNEL_POSITION_LEFT, PA_CHANNEL_POSITION_RIGHT, other 3, other 4, other 5,
      other 6]⟩ (by decide) (by decide) (by decide) (by decide)

/-- C2: `mimefy_sample_spec` is idempotent. For every valid (spec, map) pair it
returns a pair, and applying it to that pair returns the very same pair: format, rate,
channel count and channel map are all unchanged by the second application. -/
theorem C2_mimefy_idempotent (ss : pa_sample_spec) (cm : pa_channel_map)
    (hf1 : ss.format ≠ PA_SAMPLE_MAX) (hf2 : ss.format ≠ PA_SAMPLE_INVALID)
    (hch : 1 ≤ ss.channels) (hc : pa_channel_map_compatible cm ss = true) :
    ∃ ss1 cm1, mimefy_sample_spec ss cm = some (ss1, cm1) ∧
      mimefy_sample_spec ss1 cm1 = some (ss1, cm1) := by
  obtain ⟨f1, cm1, h1, -, -, -, h5⟩ := mimefy_sample_spec_result ss cm hf1 hf2 hch hc
  exact ⟨_, cm1, h1, h5⟩

/-- C2 at a mono 12 kHz A-law source. -/
theorem C2_mimefy_idempotent_witness :
    ∃ ss1 cm1,
      mimefy_sample_spec ⟨PA_SAMPLE_ALAW, 12000, 1⟩ ⟨1, [PA_CHANNEL_POSITION_MONO]⟩
        = some (ss1, cm1) ∧
      mimefy_sample_spec ss1 cm1 = some (ss1, cm1) :=
  C2_mimefy_idempotent ⟨PA_SAMPLE_ALAW, 12000, 1⟩ ⟨1, [PA_CHANNEL_POSITION_MONO]⟩
    (by decide) (by decide) (by decide) (by decide)

theorem rate_guard (r : Nat) :
    (r != 8000 && r != 11025 && r != 16000 && r != 22050 &&
      r != 24000 && r != 32000 && r != 44100 && r != 48000) = true ↔
    ¬ (r ∈ [8000, 11025, 16000, 22050, 24000, 32000, 44100, 48000]) := by
  simp only [List.mem_cons, List.mem_singleton, List.not_mem_nil, or_false, not_or,
    Bool.and_eq_true, bne_iff_ne, ne_eq, and_assoc]

theorem is_mime_pcm (f : pa_sample_format_t) (r n : Nat) (m : List pa_channel_position_t)
    (hf : f = PA_SAMPLE_S16BE ∨ f = PA_SAMPLE_S24BE ∨ f = PA_SAMPLE_U8) :
    is_mime_sample_spec ⟨f, r, n⟩ ⟨n, m⟩ = some (decide
      (r ∈ [8000, 11025, 16000, 22050, 24000, 32000, 44100, 48000] ∧
        ((n = 1 ∧ map_at ⟨n, m⟩ 0 = PA_CHANNEL_POSITION_MONO) ∨
          (n = 2 ∧ map_at ⟨n, m⟩ 0 = PA_CHANNEL_POSITION_LEFT ∧
            map_at ⟨n, m⟩ 1 = PA_CHANNEL_POSITION_RIGHT)))) := by
  generalize hp0 : map_at ⟨n, m⟩ 0 = p0
  generalize hp1 : map_at ⟨n, m⟩ 1 = p1
  have hbody : is_mime_sample_spec ⟨f, r, n⟩ ⟨n, m⟩ =
      (if (r != 8000 && r != 11025 && r != 16000 && r != 22050 &&
          r != 24000 && r != 32000 && r != 44100 && r != 48000) = true then some false
        else if (n != 1 && n != 2) = true then some false
        else if ((n == 1 && p0 != PA_CHANNEL_POSITION_MONO) ||
          (n == 2 && (p0 != PA_CHANNEL_POSITION_LEFT ||
            p1 != PA_CHANNEL_POSITION_RIGHT))) = true then some false
        else some true) := by
    rcases hf with h | h | h <;> subst h <;>
      simp only [is_mime_sample_spec, pa_channel_map_compatible, beq_self_eq_true,
        Bool.not_true, Bool.false_eq_true, if_false, hp0, hp1]
  rw [hbody]
  by_cases hr : r ∈ [8000, 11025, 16000, 22050, 24000, 32000, 44100, 48000]
  · rw [if_neg (by rw [rate_guard]; exact not_not.mpr hr)]
    have hn : n = 1 ∨ n = 2 ∨ (n ≠ 1 ∧ n ≠ 2) := by omega
    rcases hn with h | h | ⟨h1, h2⟩
    · subst h; by_cases h0 : p0 = PA_CHANNEL_POSITION_MONO <;> simp [hr, h0]
    · subst h
      by_cases h0 : p0 = PA_CHANNEL_POSITION_LEFT <;>
        by_cases h1 : p1 = PA_CHANNEL_POSITION_RIGHT <;> simp [hr, h0, h1]
    · simp [h1, h2]
  · rw [if_pos (by rw [rate_guard]; exact hr)]
    simp [hr]

theorem is_mime_ulaw (r n : Nat) (m : List pa_channel_position_t) :
    is_mime_sample_spec ⟨PA_SAMPLE_ULAW, r, n⟩ ⟨n, m⟩ = some (decide
      (r = 8000 ∧ n = 1 ∧ map_at ⟨n, m⟩ 0 = PA_CHANNEL_POSITION_MONO)) := by
  generalize hp0 : map_at ⟨n, m⟩ 0 = p0
  simp only [is_mime_sample_spec, pa_channel_map_compatible, beq_self_eq_true,
    Bool.not_true, Bool.false_eq_true, if_false, hp0]
  by_cases hr : r = 8000 <;> by_cases hn : n = 1 <;>
    by_cases h0 : p0 = PA_CHANNEL_POSITION_MONO <;> simp [hr, hn, h0]

theorem is_mime_other (f : pa_sample_format_t) (r n : Nat) (m : List pa_channel_position_t)
    (h1 : f ≠ PA_SAMPLE_S16BE) (h2 : f ≠ PA_SAMPLE_S24BE) (h3 : f ≠ PA_SAMPLE_U8)
    (h4 : f ≠ PA_SAMPLE_ULAW) :
    is_mime_sample_spec ⟨f, r, n⟩ ⟨n, m⟩ = some false := by
  cases f <;> first
    | exact absurd rfl h1 | exact absurd rfl h2 | exact absurd rfl h3 | exact absurd rfl h4
    | simp only [is_mime_sample_spec, pa_channel_map_compatible, beq_self_eq_true,
        Bool.not_true, Bool.false_eq_true, if_false]

/-- The exact set of pairs `is_mime_sample_spec` accepts, and that it never aborts on
a compatible pair. -/
theorem is_mime_sample_spec_char (ss : pa_sample_spec) (cm : pa_channel_map)
    (hc : pa_channel_map_compatible cm ss = true) :
    (is_mime_sample_spec ss cm = some true ↔
      ((ss.format = PA_SAMPLE_S16BE ∨ ss.format = PA_SAMPLE_S24BE ∨
          ss.format = PA_SAMPLE_U8) ∧
        ss.rate ∈ [8000, 11025, 16000, 22050, 24000, 32000, 44100, 48000] ∧
        ((ss.channels = 1 ∧ map_at cm 0 = PA_CHANNEL_POSITION_MONO) ∨
          (ss.channels = 2 ∧ map_at cm 0 = PA_CHANNEL_POSITION_LEFT ∧
            map_at cm 1 = PA_CHANNEL_POSITION_RIGHT))) ∨
      (ss.format = PA_SAMPLE_ULAW ∧ ss.rate = 8000 ∧ ss.channels = 1 ∧
        map_at cm 0 = PA_CHANNEL_POSITION_MONO)) ∧
    (is_mime_sample_spec ss cm ≠ some true → is_mime_sample_spec ss cm = some false) := by
  obtain ⟨f, r, n⟩ := ss
  obtain ⟨n1, m⟩ := cm
  simp only [pa_channel_map_compatible, beq_iff_eq] at hc
  subst hc
  by_cases hf : f = PA_SAMPLE_S16BE ∨ f = PA_SAMPLE_S24BE ∨ f = PA_SAMPLE_U8
  · have hu : f ≠ PA_SAMPLE_ULAW := by rcases hf with h | h | h <;> subst h <;> decide
    rw [is_mime_pcm f r n1 m hf]
    simp [hf, hu]
  · by_cases hu : f = PA_SAMPLE_ULAW
    · subst hu
      rw [is_mime_ulaw]
      simp
    · have h123 := not_or.mp hf
      have h23 := not_or.mp h123.2
      rw [is_mime_other f r n1 m h123.1 h23.1 h23.2 hu]
      simp [hf, hu]


/-- C3: for a compatible channel map, `is_mime_sample_spec` returns true exactly when
(a) the format is S16BE, S24BE or U8, the rate is one of the eight accepted rates and
the channels are one mapped to MONO or two mapped to LEFT, RIGHT; or (b) the format is
ULAW at 8000 Hz with one channel mapped to MONO. In every other case it returns
false. -/
theorem C3_is_mime_sample_spec_iff (ss : pa_sample_spec) (cm : pa_channel_map)
    (hc : pa_channel_map_compatible cm ss = true) :
    (is_mime_sample_spec ss cm = some true ↔
      ((ss.format = PA_SAMPLE_S16BE ∨ ss.format = PA_SAMPLE_S24BE ∨
          ss.format = PA_SAMPLE_U8) ∧
        ss.rate ∈ [8000, 11025, 16000, 22050, 24000, 32000, 44100, 48000] ∧
        ((ss.channels = 1 ∧ map_at cm 0 = PA_CHANNEL_POSITION_MONO) ∨
          (ss.channels = 2 ∧ map_at cm 0 = PA_CHANNEL_POSITION_LEFT ∧
            map_at cm 1 = PA_CHANNEL_POSITION_RIGHT))) ∨
      (ss.format = PA_SAMPLE_ULAW ∧ ss.rate = 8000 ∧ ss.channels = 1 ∧
        map_at cm 0 = PA_CHANNEL_POSITION_MONO)) ∧
    (is_mime_sample_spec ss cm ≠ some true → is_mime_sample_spec ss cm = some false) :=
  is_mime_sample_spec_char ss cm hc

/-- C3 at big-endian 16-bit stereo, 44100 Hz, mapped left/right. -/
theorem C3_is_mime_sample_spec_iff_witness :
    is_mime_sample_spec ⟨PA_SAMPLE_S16BE, 44100, 2⟩
      ⟨2, [PA_CHANNEL_POSITION_LEFT, PA_CHANNEL_POSITION_RIGHT]⟩ = some true :=
  (C3_is_mime_sample_spec_iff ⟨PA_SAMPLE_S16BE, 44100, 2⟩
    ⟨2, [PA_CHANNEL_POSITION_LEFT, PA_CHANNEL_POSITION_RIGHT]⟩ (by decide)).1.mpr
    (by decide)

/-- C4: for every valid input spec `mimefy_sample_spec` returns a spec whose rate is
the input rate rounded up to the next allowed rate: 48000 when the input exceeds 44100,
otherwise the smallest of 8000, 11025, 16000, 22050, 24000, 32000, 44100 that is at
least the input (hence 8000 for inputs up to 8000). An allowed rate is unchanged, and
the result is below the input only for inputs above 48000. -/
theorem C4_mimefy_rate_rounds_up (ss : pa_sample_spec) (cm : pa_channel_map)
    (hf1 : ss.format ≠ PA_SAMPLE_MAX) (hf2 : ss.format ≠ PA_SAMPLE_INVALID)
    (hch : 1 ≤ ss.channels) (hc : pa_channel_map_compatible cm ss = true) :
    ∃ ss1 cm1, mimefy_sample_spec ss cm = some (ss1, cm1) ∧
      (44100 < ss.rate → ss1.rate = 48000) ∧
      (ss.rate ≤ 44100 →
        ss1.rate ∈ [8000, 11025, 16000, 22050, 24000, 32000, 44100] ∧
        ss.rate ≤ ss1.rate ∧
        ∀ a ∈ [8000, 11025, 16000, 22050, 24000, 32000, 44100],
          ss.rate ≤ a → ss1.rate ≤ a) ∧
      (ss.rate ≤ 8000 → ss1.rate = 8000) ∧
      (ss.rate ∈ [8000, 11025, 16000, 22050, 24000, 32000, 44100, 48000] →
        ss1.rate = ss.rate) ∧
      (ss1.rate < ss.rate → 48000 < ss.rate) := by
  obtain ⟨f1, cm1, h1, -, -, -, -⟩ := mimefy_sample_spec_result ss cm hf1 hf2 hch hc
  refine ⟨_, cm1, h1, ?_, ?_, ?_, ?_, ?_⟩
  · intro h
    simp [mimefy_rate, h]
  · intro h
    simp only [mimefy_rate, List.mem_cons, List.mem_singleton, List.not_mem_nil, or_false,
      forall_eq_or_imp, forall_eq]
    split_ifs <;> simp <;> omega
  · intro h
    simp only [mimefy_rate]
    split_ifs <;> omega
  · intro h
    exact mimefy_rate_fixed _ h
  · simp only [mimefy_rate]
    split_ifs <;> omega

/-- C4 at a stereo 30 kHz source: the rate becomes 32000. -/
theorem C4_mimefy_rate_rounds_up_witness :
    ∃ ss1 cm1,
      mimefy_sample_spec ⟨PA_SAMPLE_S16LE, 30000, 2⟩
        ⟨2, [PA_CHANNEL_POSITION_LEFT, PA_CHANNEL_POSITION_RIGHT]⟩ = some (ss1, cm1) ∧
      (44100 < 30000 → ss1.rate = 48000) ∧
      (30000 ≤ 44100 →
        ss1.rate ∈ [8000, 11025, 16000, 22050, 24000, 32000, 44100] ∧
        30000 ≤ ss1.rate ∧
        ∀ a ∈ [8000, 11025, 16000, 22050, 24000, 32000, 44100],
          30000 ≤ a → ss1.rate ≤ a) ∧
      (30000 ≤ 8000 → ss1.rate = 8000) ∧
      (30000 ∈ [8000, 11025, 16000, 22050, 24000, 32000, 44100, 48000] →
        ss1.rate = 30000) ∧
      (ss1.rate < 30000 → 48000 < 30000) :=
  C4_mimefy_rate_rounds_up ⟨PA_SAMPLE_S16LE, 30000, 2⟩
    ⟨2, [PA_CHANNEL_POSITION_LEFT, PA_CHANNEL_POSITION_RIGHT]⟩
    (by decide) (by decide) (by decide) (by decide)

/-- C5: for every valid input spec `mimefy_sample_spec` returns a spec whose format
is S24BE for the 24-bit, 24-in-32, 32-bit and float formats, S16BE for the 16-bit
formats, U8 for U8, and for A-law and µ-law alike ULAW exactly when the coerced rate
is 8000 and the coerced channel count is 1, S16BE otherwise. -/
theorem C5_mimefy_format_mapping (ss : pa_sample_spec) (cm : pa_channel_map)
    (hf1 : ss.format ≠ PA_SAMPLE_MAX) (hf2 : ss.format ≠ PA_SAMPLE_INVALID)
    (hch : 1 ≤ ss.channels) (hc : pa_channel_map_compatible cm ss = true) :
    ∃ ss1 cm1, mimefy_sample_spec ss cm = some (ss1, cm1) ∧
      (ss.format ∈ [PA_SAMPLE_S24LE, PA_SAMPLE_S24BE, PA_SAMPLE_S24_32LE,
          PA_SAMPLE_S24_32BE, PA_SAMPLE_S32LE, PA_SAMPLE_S32BE, PA_SAMPLE_FLOAT32LE,
          PA_SAMPLE_FLOAT32BE] → ss1.format = PA_SAMPLE_S24BE) ∧
      (ss.format ∈ [PA_SAMPLE_S16LE, PA_SAMPLE_S16BE] → ss1.format = PA_SAMPLE_S16BE) ∧
      (ss.format = PA_SAMPLE_U8 → ss1.format = PA_SAMPLE_U8) ∧
      (ss.format = PA_SAMPLE_ALAW ∨ ss.format = PA_SAMPLE_ULAW →
        (ss1.format = PA_SAMPLE_ULAW ↔ (ss1.rate = 8000 ∧ ss1.channels = 1)) ∧
        (¬(ss1.rate = 8000 ∧ ss1.channels = 1) → ss1.format = PA_SAMPLE_S16BE)) := by
  obtain ⟨f1, cm1, h1, h2, -, -, -⟩ := mimefy_sample_spec_result ss cm hf1 hf2 hch hc
  refine ⟨_, cm1, h1, ?_, ?_, ?_, ?_⟩
  · intro h
    simp only [List.mem_cons, List.mem_singleton, List.not_mem_nil, or_false] at h
    rcases h with h | h | h | h | h | h | h | h <;> rw [h] at h2 <;>
      simp only [mimefy_format, Option.some.injEq] at h2 <;> exact h2.symm
  · intro h
    simp only [List.mem_cons, List.mem_singleton, List.not_mem_nil, or_false] at h
    rcases h with h | h <;> rw [h] at h2 <;>
      simp only [mimefy_format, Option.some.injEq] at h2 <;> exact h2.symm
  · intro h
    rw [h] at h2
    simp only [mimefy_format, Option.some.injEq] at h2
    exact h2.symm
  · intro h
    generalize mimefy_rate ss.rate = r at h2 ⊢
    generalize mimefy_channels ss.channels = c at h2 ⊢
    by_cases hrc : r = 8000 ∧ c = 1
    · have hf : f1 = PA_SAMPLE_ULAW := by
        rcases h with h | h <;> rw [h] at h2 <;>
          simp [mimefy_format, hrc.1, hrc.2] at h2 <;> exact h2.symm
      subst hf
      simp [hrc.1, hrc.2]
    · have hf : f1 = PA_SAMPLE_S16BE := by
        rcases h with h | h <;> rw [h] at h2 <;>
          simp [mimefy_format, hrc] at h2 <;> exact h2.symm
      subst hf
      simp [hrc]

/-- C5 at a mono 8 kHz A-law source: the format becomes ULAW. -/
theorem C5_mimefy_format_mapping_witness :
    ∃ ss1 cm1,
      mimefy_sample_spec ⟨PA_SAMPLE_ALAW, 8000, 1⟩ ⟨1, [PA_CHANNEL_POSITION_MONO]⟩
        = some (ss1, cm1) ∧
      (PA_SAMPLE_ALAW ∈ [PA_SAMPLE_S24LE, PA_SAMPLE_S24BE, PA_SAMPLE_S24_32LE,
          PA_SAMPLE_S24_32BE, PA_SAMPLE_S32LE, PA_SAMPLE_S32BE, PA_SAMPLE_FLOAT32LE,
          PA_SAMPLE_FLOAT32BE] → ss1.format = PA_SAMPLE_S24BE) ∧
      (PA_SAMPLE_ALAW ∈ [PA_SAMPLE_S16LE, PA_SAMPLE_S16BE] →
        ss1.format = PA_SAMPLE_S16BE) ∧
      (PA_SAMPLE_ALAW = PA_SAMPLE_U8 → ss1.format = PA_SAMPLE_U8) ∧
      (PA_SAMPLE_ALAW = PA_SAMPLE_ALAW ∨ PA_SAMPLE_ALAW = PA_SAMPLE_ULAW →
        (ss1.format = PA_SAMPLE_ULAW ↔ (ss1.rate = 8000 ∧ ss1.channels = 1)) ∧
        (¬(ss1.rate = 8000 ∧ ss1.channels = 1) → ss1.format = PA_SAMPLE_S16BE)) :=
  C5_mimefy_format_mapping ⟨PA_SAMPLE_ALAW, 8000, 1⟩ ⟨1, [PA_CHANNEL_POSITION_MONO]⟩
    (by decide) (by decide) (by decide) (by decide)

/-- C6: for a compatible channel map, `sample_spec_to_mime_type` returns `NULL`
exactly when `is_mime_sample_spec` is false; otherwise it returns exactly
`audio/L16; rate=R; channels=C` for S16BE, `audio/L24; rate=R; channels=C` for S24BE,
`audio/L8; rate=R; channels=C` for U8 (R and C the decimal rate and channel count) and
exactly `audio/basic` for ULAW. It never aborts. -/
theorem C6_sample_spec_to_mime_type (ss : pa_sample_spec) (cm : pa_channel_map)
    (hc : pa_channel_map_compatible cm ss = true) :
    (sample_spec_to_mime_type ss cm = some none ↔ is_mime_sample_spec ss cm = some false) ∧
    (is_mime_sample_spec ss cm = some true →
      (ss.format = PA_SAMPLE_S16BE ∧ sample_spec_to_mime_type ss cm =
          some (some ("audio/L16; rate=" ++ toString ss.rate ++ "; channels=" ++
            toString ss.channels))) ∨
      (ss.format = PA_SAMPLE_S24BE ∧ sample_spec_to_mime_type ss cm =
          some (some ("audio/L24; rate=" ++ toString ss.rate ++ "; channels=" ++
            toString ss.channels))) ∨
      (ss.format = PA_SAMPLE_U8 ∧ sample_spec_to_mime_type ss cm =
          some (some ("audio/L8; rate=" ++ toString ss.rate ++ "; channels=" ++
            toString ss.channels))) ∨
      (ss.format = PA_SAMPLE_ULAW ∧ sample_spec_to_mime_type ss cm =
          some (some "audio/basic"))) ∧
    (is_mime_sample_spec ss cm = some true ∨ is_mime_sample_spec ss cm = some false) := by
  obtain ⟨f, r, n⟩ := ss
  obtain ⟨n1, m⟩ := cm
  have hc1 := hc
  simp only [pa_channel_map_compatible, beq_iff_eq] at hc1
  subst hc1
  have hlit16 : "audio/" ++ "L16" ++ "; rate=" = "audio/L16; rate=" := by decide
  have hlit24 : "audio/" ++ "L24" ++ "; rate=" = "audio/L24; rate=" := by decide
  have hlit8 : "audio/" ++ "L8" ++ "; rate=" = "audio/L8; rate=" := by decide
  by_cases hf : f = PA_SAMPLE_S16BE ∨ f = PA_SAMPLE_S24BE ∨ f = PA_SAMPLE_U8
  · obtain ⟨b, hm⟩ : ∃ b, is_mime_sample_spec ⟨f, r, n1⟩ ⟨n1, m⟩ = some b :=
      ⟨_, is_mime_pcm f r n1 m hf⟩
    cases b
    · simp [sample_spec_to_mime_type, hm, hc]
    · rcases hf with h | h | h <;> subst h <;>
        simp [sample_spec_to_mime_type, hm, hc, fmt_u, hlit16, hlit24, hlit8]
  · by_cases hu : f = PA_SAMPLE_ULAW
    · subst hu
      obtain ⟨b, hm⟩ : ∃ b, is_mime_sample_spec ⟨PA_SAMPLE_ULAW, r, n1⟩ ⟨n1, m⟩ = some b :=
        ⟨_, is_mime_ulaw r n1 m⟩
      cases b <;> simp [sample_spec_to_mime_type, hm, hc]
    · have h123 := not_or.mp hf
      have h23 := not_or.mp h123.2
      have hm := is_mime_other f r n1 m h123.1 h23.1 h23.2 hu
      simp [sample_spec_to_mime_type, hm, hc]

/-- C6 at big-endian 16-bit mono, 44100 Hz: the type is
`audio/L16; rate=44100; channels=1`. -/
theorem C6_sample_spec_to_mime_type_witness :
    sample_spec_to_mime_type ⟨PA_SAMPLE_S16BE, 44100, 1⟩ ⟨1, [PA_CHANNEL_POSITION_MONO]⟩
      = some (some "audio/L16; rate=44100; channels=1") := by
  have h := (C6_sample_spec_to_mime_type ⟨PA_SAMPLE_S16BE, 44100, 1⟩
    ⟨1, [PA_CHANNEL_POSITION_MONO]⟩ (by decide)).2.1 (by decide)
  rcases h with h | h | h | h
  · exact h.2
  · exact absurd h.1 (by decide)
  · exact absurd h.1 (by decide)
  · exact absurd h.1 (by decide)

/-! ## Properties of `escape_html` -/

/-- The specified escaping is a homomorphism over concatenation. -/
theorem spec_escape_chars_append (a b : List Char) :
    spec_escape_chars (a ++ b) = spec_escape_chars a ++ spec_escape_chars b := by
  induction a with
  | nil => rfl
  | cons ch t ih => simp [spec_escape_chars, ih]

/-- Text without special bytes is its own escaping. -/
theorem spec_escape_chars_plain (l : List Char) (h : ∀ ch ∈ l, html_special ch = false) :
    spec_escape_chars l = l := by
  induction l with
  | nil => rfl
  | cons ch t ih =>
    have hc := h ch (List.mem_cons_self _ _)
    simp only [html_special, Bool.or_eq_false_iff, beq_eq_false_iff_ne, ne_eq] at hc
    obtain ⟨⟨h1, h2⟩, h3⟩ := hc
    simp [spec_escape_chars, h1, h2, h3, ih (fun c hcm => h c (List.mem_cons_of_mem _ hcm))]

/-- Entity decoding inverts the specified escaping. -/
theorem spec_decode_escape_chars (l : List Char) :
    spec_decode_chars (spec_escape_chars l) = l := by
  induction l with
  | nil => rfl
  | cons ch t ih =>
    by_cases h1 : ch = '<'
    · subst h1; simp [spec_escape_chars, spec_decode_chars, ih]
    · by_cases h2 : ch = '>'
      · subst h2; simp [spec_escape_chars, spec_decode_chars, ih]
      · by_cases h3 : ch = '&'
        · subst h3; simp [spec_escape_chars, spec_decode_chars, ih]
        · simp only [spec_escape_chars, h1, h2, h3, if_false, List.singleton_append]
          rw [spec_decode_chars]
          · rw [ih]
          · intro rest hr _; exact h3 hr
          · intro rest hr _; exact h3 hr
          · intro rest hr _; exact h3 hr

theorem drop_take_middle (pre pend rest : List Char) :
    ((pre ++ pend ++ rest).drop pre.length).take (pre.length + pend.length - pre.length)
      = pend := by
  simp [List.append_assoc]

/-- The loop invariant of `escape_html` on well-separated input: with `pre` already
flushed, `pend` pending (free of special bytes) and `rest` still to scan, the loop
returns the buffer followed by the escaped `pend ++ rest`. -/
theorem escape_html_loop_separated :
    ∀ (rest pre pend sb : List Char),
      (∀ ch ∈ pend, html_special ch = false) →
      specials_separated (pend.isEmpty) rest = true →
      escape_html_loop (pre ++ pend ++ rest) rest (pre.length + pend.length) pre.length sb =
        sb ++ spec_escape_chars (pend ++ rest) := by
  intro rest
  induction rest with
  | nil =>
    intro pre pend sb hp _
    rw [escape_html_loop]
    cases pend with
    | nil => simp [spec_escape_chars]
    | cons a t =>
      have hlt : pre.length + (a :: t).length > pre.length := by simp
      rw [if_pos hlt, pa_strbuf_putsn, drop_take_middle]
      simp [spec_escape_chars_plain _ hp]
  | cons c r ih =>
    intro pre pend sb hp hsep
    have ht : pre ++ pend ++ c :: r = (pre ++ pend ++ [c]) ++ [] ++ r := by simp
    have ht2 : pre ++ pend ++ c :: r = pre ++ (pend ++ [c]) ++ r := by simp
    by_cases hc : html_special c = true
    · -- a special byte: by separation some text is pending, so it is flushed
      simp only [specials_separated, hc, if_true, Bool.and_eq_true, Bool.not_eq_true'] at hsep
      obtain ⟨hne, hsep1⟩ := hsep
      have hlt : pre.length + pend.length > pre.length := by
        cases pend with
        | nil => simp at hne
        | cons a t => simp
      have hstep := ih (pre ++ pend ++ [c]) [] (sb ++ pend ++ spec_escape_chars [c])
        (by simp) (by simpa using hsep1)
      simp only [List.length_append, List.length_singleton, List.length_nil, Nat.add_zero,
        List.nil_append] at hstep
      rw [escape_html_loop]
      have hcs : c = '>' ∨ c = '<' ∨ c = '&' := by
        simpa [html_special, or_assoc] using hc
      rw [if_pos hcs]
      simp only [if_pos hlt, pa_strbuf_putsn, drop_take_middle]
      rw [spec_escape_chars_append, spec_escape_chars_plain _ hp]
      rcases hcs with h | h | h <;> subst h <;>
        · rw [← ht] at hstep
          simpa [spec_escape_chars, List.append_assoc] using hstep
    · -- an ordinary byte joins the pending text
      have hc' : html_special c = false := by simpa using hc
      simp only [specials_separated, hc', Bool.false_eq_true, if_false] at hsep
      have hstep := ih pre (pend ++ [c]) sb
        (by
          intro ch hch
          rcases List.mem_append.mp hch with h | h
          · exact hp ch h
          · simp only [List.mem_singleton] at h; subst h; exact hc')
        (by
          have he : (pend ++ [c]).isEmpty = false := by cases pend <;> rfl
          rw [he]; exact hsep)
      rw [escape_html_loop]
      have hcs : ¬ (c = '>' ∨ c = '<' ∨ c = '&') := by
        simpa [html_special, and_assoc] using hc'
      rw [if_neg hcs]
      rw [ht2]
      simp only [List.length_append, List.length_singleton, Nat.add_assoc] at hstep
      simpa [List.append_assoc] using hstep

/-- Where no special byte stands first in the input or right after another special
byte, the code computes what the specification says. -/
theorem escape_html_of_separated (t : String)
    (h : specials_separated true t.data = true) :
    escape_html t = spec_escape_html t := by
  have := escape_html_loop_separated t.data [] [] [] (by simp) (by simpa using h)
  simp only [List.nil_append, List.length_nil, Nat.add_zero] at this
  simp only [escape_html, spec_escape_html, this]


/-- C7: on the input `<a` the code returns `&lt;<a`, which still holds a raw `<`,
where replacing each special byte by its entity gives `&lt;a`. The cursor `e` is only
moved past a special byte when text was pending before it (`e = p + 1` sits inside
`if (p > e)`), so a special byte at the start of the input, or right after another
special byte, is emitted a second time, raw, by the next flush. -/
theorem C7_escape_html_leading_special :
    escape_html "<a" = "&lt;<a" ∧
    spec_escape_html "<a" = "&lt;a" ∧
    escape_html "<a" ≠ spec_escape_html "<a" ∧
    '<' ∈ (escape_html "<a").data ∧
    escape_html "a<>b" = "a&lt;&gt;>b" ∧
    spec_escape_html "a<>b" = "a&lt;&gt;b" := by
  decide

/-- C8: the code is not a homomorphism over concatenation, and entity decoding does
not invert it: `escape_html ("a" ++ "<")` is `a&lt;` while
`escape_html "a" ++ escape_html "<"` is `a&lt;<`, and decoding `escape_html "<"`
gives `<<`. Both come from the misplaced `e = p + 1` of C7. -/
theorem C8_escape_html_not_homomorphic :
    escape_html ("a" ++ "<") = "a&lt;" ∧
    escape_html "a" ++ escape_html "<" = "a&lt;<" ∧
    escape_html ("a" ++ "<") ≠ escape_html "a" ++ escape_html "<" ∧
    spec_decode_html (escape_html "<") = "<<" ∧
    spec_decode_html (escape_html "<") ≠ "<" := by
  decide

/-! ## Properties of the request parser -/

theorem strcspn_eq_zero_iff (s : String) : strcspn s " \r\n" = 0 ↔ starts_blank s = true := by
  obtain ⟨l⟩ := s
  cases l with
  | nil => simp [strcspn, starts_blank]
  | cons ch t =>
    have hrej : (" \r\n" : String).data = [' ', '\r', '\n'] := by decide
    simp only [strcspn, starts_blank, hrej, List.takeWhile_cons]
    by_cases h1 : ch = ' '
    · subst h1; simp
    · by_cases h2 : ch = '\r'
      · subst h2; simp
      · by_cases h3 : ch = '\n'
        · subst h3; simp
        · simp [h1, h2, h3]

theorem get_then_iff (p : String → Bool) (lines : List String) :
    get_then p lines = true ↔
      ∃ pre g mid e post, lines = pre ++ g :: (mid ++ e :: post) ∧
        pa_startswith g "GET " = true ∧ p e = true := by
  induction lines with
  | nil => simp [get_then]
  | cons s rest ih =>
    simp only [get_then, Bool.or_eq_true, Bool.and_eq_true, List.any_eq_true, ih]
    constructor
    · rintro (⟨hs, e, he, hpe⟩ | ⟨pre, g, mid, e, post, hl, hg, hpe⟩)
      · obtain ⟨mid, post, hsplit⟩ := List.append_of_mem he
        exact ⟨[], s, mid, e, post, by simp [hsplit], hs, hpe⟩
      · exact ⟨s :: pre, g, mid, e, post, by simp [hl], hg, hpe⟩
    · rintro ⟨pre, g, mid, e, post, hl, hg, hpe⟩
      cases pre with
      | nil =>
        simp only [List.nil_append, List.cons.injEq] at hl
        obtain ⟨h1, h2⟩ := hl
        subst h1
        exact Or.inl ⟨hg, e, by simp [h2], hpe⟩
      | cons x pre1 =>
        simp only [List.cons_append, List.cons.injEq] at hl
        exact Or.inr ⟨pre1, g, mid, e, post, hl.2, hg, hpe⟩

theorem get_then_any (p : String → Bool) (lines : List String)
    (h : get_then p lines = true) : lines.any p = true := by
  induction lines with
  | nil => simp [get_then] at h
  | cons s rest ih =>
    simp only [get_then, Bool.or_eq_true, Bool.and_eq_true] at h
    simp only [List.any_cons, Bool.or_eq_true]
    rcases h with h | h
    · exact Or.inr h.2
    · exact Or.inr (ih h)

/-- In state `STATE_DATA` every line is ignored. -/
theorem feed_lines_data (pkg ver : String) (lines : List String) (c : connection)
    (hs : c.state = STATE_DATA) : feed_lines pkg ver c lines = some c := by
  induction lines with
  | nil => rfl
  | cons s rest ih => simp [feed_lines, line_callback, hs, ih]

/-- With a stored url the dispatcher returns, and it only extends the log. -/
theorem handle_url_some (pkg ver : String) (c : connection) (u : String)
    (hu : c.url = some u) :
    ∃ c1, handle_url pkg ver c = some c1 ∧ c1.state = c.state ∧ c1.url = c.url := by
  unfold handle_url
  rw [hu]
  simp only
  split_ifs <;> exact ⟨_, rfl, rfl, by simp [html_response, http_response, hu]⟩

/-- From `STATE_MIME_HEADER` the parser ends in `STATE_DATA` exactly when one of the
remaining lines is empty or begins with a space, CR or LF. -/
theorem feed_lines_mime_header (pkg ver : String) (lines : List String) :
    ∀ (c : connection) (u : String), c.state = STATE_MIME_HEADER → c.url = some u →
      ∃ c1, feed_lines pkg ver c lines = some c1 ∧
        (c1.state = STATE_DATA ↔ lines.any starts_blank = true) := by
  induction lines with
  | nil =>
    intro c u hs hu
    exact ⟨c, rfl, by simp [hs]⟩
  | cons s rest ih =>
    intro c u hs hu
    by_cases hb : starts_blank s = true
    · have h0 : strcspn s " \r\n" = 0 := (strcspn_eq_zero_iff s).mpr hb
      obtain ⟨c1, h1, h2, h3⟩ :=
        handle_url_some pkg ver { c with state := STATE_DATA } u hu
      refine ⟨c1, ?_, ?_⟩
      · simp [feed_lines, line_callback, hs, h0, h1, feed_lines_data pkg ver rest c1 h2]
      · simp [hb, h2]
    · have h0 : strcspn s " \r\n" ≠ 0 := fun h => hb ((strcspn_eq_zero_iff s).mp h)
      obtain ⟨c1, h1, h2⟩ := ih c u hs hu
      refine ⟨c1, ?_, ?_⟩
      · simp [feed_lines, line_callback, hs, h0, h1]
      · simp [hb, h2]

/-- From `STATE_REQUEST_LINE` the parser ends in `STATE_DATA` exactly when the lines
hold a `GET ` line followed later by a line that is empty or begins with a space, CR or
LF. -/
theorem feed_lines_request_line (pkg ver : String) (lines : List String) :
    ∀ (c : connection), c.state = STATE_REQUEST_LINE →
      ∃ c1, feed_lines pkg ver c lines = some c1 ∧
        (c1.state = STATE_DATA ↔ get_then starts_blank lines = true) := by
  induction lines with
  | nil =>
    intro c hs
    exact ⟨c, rfl, by simp [hs, get_then]⟩
  | cons s rest ih =>
    intro c hs
    by_cases hg : pa_startswith s "GET " = true
    · obtain ⟨c1, h1, h2⟩ := feed_lines_mime_header pkg ver rest
        { c with url := some (pa_xstrndup (str_advance s 4)
            (strcspn (str_advance s 4) " \r\n\t?")), state := STATE_MIME_HEADER } _ rfl rfl
      refine ⟨c1, ?_, ?_⟩
      · simp [feed_lines, line_callback, hs, hg, h1]
      · rw [h2]
        simp only [get_then, hg, Bool.true_and, Bool.or_eq_true]
        constructor
        · exact Or.inl
        · rintro (h | h)
          · exact h
          · exact get_then_any _ _ h
    · obtain ⟨c1, h1, h2⟩ := ih
        (html_response pkg ver c 500 "Internal Server Error" none) hs
      refine ⟨c1, ?_, ?_⟩
      · simp [feed_lines, line_callback, hs, hg, h1]
      · simp [get_then, hg, h2]

/-- C9, the claim as stated fails: the two lines `GET / HTTP/1.0` and ` x` take a
fresh connection to `STATE_DATA` (the root page is served), although no line of the
sequence is empty, not even in the sense "only whitespace/CRLF": the second line holds
an `x`. -/
theorem C9_data_without_empty_line :
    ∃ c, feed_lines "pulseaudio" "0.9" new_connection ["GET / HTTP/1.0", " x"] = some c ∧
      c.state = STATE_DATA ∧
      c.log = [handle_root] ∧
      ¬ ∃ pre g mid e post,
          ["GET / HTTP/1.0", " x"] = pre ++ g :: (mid ++ e :: post) ∧
          pa_startswith g "GET " = true ∧ spec_empty_line e = true := by
  refine ⟨_, rfl, by decide, by decide, ?_⟩
  rw [← get_then_iff]
  decide

/-- C9, amended: for every sequence of non-EOF lines fed to `line_callback` on a fresh
connection the parser returns, and it ends in `STATE_DATA` (which it never leaves) if
and only if the sequence holds a line starting with `GET ` followed later by a line that
is empty or begins with a space, CR or LF. Moreover every line received in
`STATE_REQUEST_LINE` that does not start with `GET ` writes the 500 "Internal Server
Error" HTML response, asks for the deferred close, leaves state and url unchanged and
calls no page handler. -/
theorem C9_parser_reaches_data (pkg ver : String) (lines : List String) :
    (∃ c, feed_lines pkg ver new_connection lines = some c ∧
      (c.state = STATE_DATA ↔
        ∃ pre g mid e post, lines = pre ++ g :: (mid ++ e :: post) ∧
          pa_startswith g "GET " = true ∧ starts_blank e = true)) ∧
    (∀ (c : connection) (s : String), c.state = STATE_REQUEST_LINE →
      pa_startswith s "GET " = false →
      line_callback pkg ver (some s) c = some
        { c with log := c.log ++
            [ioline_puts (http_response_text pkg ver 500 "Internal Server Error" MIME_HTML),
             ioline_puts (HTML_HEADER "Internal Server Error" ++ "Internal Server Error" ++
               HTML_FOOTER),
             ioline_defer_close] }) ∧
    (∀ (c : connection) (rest : List String), c.state = STATE_DATA →
      feed_lines pkg ver c rest = some c) := by
  refine ⟨?_, ?_, ?_⟩
  · obtain ⟨c, h1, h2⟩ := feed_lines_request_line pkg ver lines new_connection rfl
    exact ⟨c, h1, by rw [h2, get_then_iff]⟩
  · intro c s hs hg
    simp [line_callback, hs, hg, html_response, http_response]
  · intro c rest hs
    exact feed_lines_data pkg ver rest c hs

/-- C9 amended, at a request that first sends a `POST` line: the `GET` request that
follows still reaches `STATE_DATA`, and the `POST` line is answered with the 500
page. -/
theorem C9_parser_reaches_data_witness :
    (∃ c, feed_lines "pulseaudio" "0.9" new_connection
        ["POST / HTTP/1.0", "GET /status HTTP/1.0", "Host: example", ""] = some c ∧
      c.state = STATE_DATA) ∧
    line_callback "pulseaudio" "0.9" (some "POST / HTTP/1.0") new_connection = some
      { new_connection with log := new_connection.log ++
          [ioline_puts (http_response_text "pulseaudio" "0.9" 500 "Internal Server Error"
             MIME_HTML),
           ioline_puts (HTML_HEADER "Internal Server Error" ++ "Internal Server Error" ++
             HTML_FOOTER),
           ioline_defer_close] } := by
  have h := C9_parser_reaches_data "pulseaudio" "0.9"
    ["POST / HTTP/1.0", "GET /status HTTP/1.0", "Host: example", ""]
  obtain ⟨⟨c, h1, h2⟩, h3, -⟩ := h
  refine ⟨⟨c, h1, h2.mpr ?_⟩, h3 new_connection "POST / HTTP/1.0" rfl (by decide)⟩
  exact ⟨["POST / HTTP/1.0"], "GET /status HTTP/1.0", ["Host: example"], "", [], rfl,
    by decide, by decide⟩

theorem str_advance_get (rest : String) : str_advance ("GET " ++ rest) 4 = rest := by
  obtain ⟨l⟩ := rest
  rfl

theorem pa_startswith_get (rest : String) : pa_startswith ("GET " ++ rest) "GET " = true := by
  obtain ⟨l⟩ := rest
  show List.isPrefixOf ['G', 'E', 'T', ' '] ('G' :: 'E' :: 'T' :: ' ' :: l) = true
  simp [List.isPrefixOf]

theorem take_length_takeWhile (q : Char → Bool) (l : List Char) :
    l.take (l.takeWhile q).length = l.takeWhile q := by
  induction l with
  | nil => rfl
  | cons a t ih =>
    by_cases h : q a = true
    · simp [List.takeWhile_cons, h, ih]
    · simp [List.takeWhile_cons, h]

theorem prefix_length_le_takeWhile (q : Char → Bool) :
    ∀ (l p : List Char), p <+: l → (∀ ch ∈ p, q ch = true) →
      p.length ≤ (l.takeWhile q).length := by
  intro l
  induction l with
  | nil =>
    intro p hp _
    simp [List.prefix_nil.mp hp]
  | cons a t ih =>
    intro p hp hall
    cases p with
    | nil => simp
    | cons b p1 =>
      obtain ⟨hab, hp1⟩ := List.cons_prefix_cons.mp hp
      subst hab
      have hb : q b = true := hall b (List.mem_cons_self _ _)
      have := ih p1 hp1 (fun ch hch => hall ch (List.mem_cons_of_mem _ hch))
      simp [List.takeWhile_cons, hb, this]

/-- C10: a request line `GET ` followed by `rest`, received in `STATE_REQUEST_LINE`,
stores as url exactly the longest prefix of `rest` that holds none of space, CR, LF,
tab and `?`, moves to `STATE_MIME_HEADER` and leaves the log untouched: nothing is
sent to the client at this step. -/
theorem C10_request_line_stores_url (pkg ver : String) (c : connection) (rest : String)
    (hs : c.state = STATE_REQUEST_LINE) :
    ∃ u : String,
      line_callback pkg ver (some ("GET " ++ rest)) c =
        some { state := STATE_MIME_HEADER, url := some u, log := c.log } ∧
      u.data <+: rest.data ∧
      (∀ ch ∈ u.data, ch ∉ url_stops) ∧
      (∀ p : List Char, p <+: rest.data → (∀ ch ∈ p, ch ∉ url_stops) →
        p.length ≤ u.data.length) := by
  have hrej : (" \r\n\t?" : String).data = url_stops := by decide
  refine ⟨⟨rest.data.takeWhile (fun ch => !url_stops.contains ch)⟩, ?_, ?_, ?_, ?_⟩
  · simp only [line_callback, hs, pa_startswith_get, str_advance_get, pa_xstrndup, strcspn,
      hrej, take_length_takeWhile, Bool.not_true, Bool.false_eq_true, if_false]
    rfl
  · exact List.takeWhile_prefix _
  · intro ch hch
    have := List.mem_takeWhile_imp hch
    simpa using this
  · intro p hp hall
    apply prefix_length_le_takeWhile _ _ _ hp
    intro ch hch
    simpa using hall ch hch

/-- C10 at `GET /style?x=1 HTTP/1.0` on a fresh connection. -/
theorem C10_request_line_stores_url_witness :
    ∃ u : String,
      line_callback "pulseaudio" "0.9" (some ("GET " ++ "/style?x=1 HTTP/1.0"))
          new_connection =
        some { state := STATE_MIME_HEADER, url := some u, log := new_connection.log } ∧
      u.data <+: ("/style?x=1 HTTP/1.0" : String).data ∧
      (∀ ch ∈ u.data, ch ∉ url_stops) ∧
      (∀ p : List Char, p <+: ("/style?x=1 HTTP/1.0" : String).data →
        (∀ ch ∈ p, ch ∉ url_stops) → p.length ≤ u.data.length) :=
  C10_request_line_stores_url "pulseaudio" "0.9" new_connection "/style?x=1 HTTP/1.0" rfl

/-- The query string is stripped: `GET /style?x=1 HTTP/1.0` stores `/style`. -/
theorem request_line_strips_query :
    line_callback "pulseaudio" "0.9" (some "GET /style?x=1 HTTP/1.0") new_connection =
      some { state := STATE_MIME_HEADER, url := some "/style", log := [] } := by
  decide

/-! ## Properties of the URL dispatcher -/

theorem pa_startswith_append (pfx rest : String) : pa_startswith (pfx ++ rest) pfx = true := by
  simp [pa_startswith, String.data_append, List.isPrefixOf_iff_prefix]

theorem str_advance_append (pfx rest : String) :
    str_advance (pfx ++ rest) pfx.length = rest := by
  obtain ⟨a⟩ := pfx
  obtain ⟨b⟩ := rest
  show (⟨(a ++ b).drop a.length⟩ : String) = ⟨b⟩
  rw [List.drop_left]

/-- C11: `handle_url` dispatches on the stored url: exactly `/` runs the root handler,
`/style` the stylesheet handler, `/status` the status handler, `/listen` the listen
index; a url that starts with `/listen/source/` runs the streaming handler on the url
with that 15-byte prefix removed (possibly the empty name); every other url gets the
404 HTML response with text `Not Found`. The six cases exclude each other, so exactly
one outcome occurs. -/
theorem C11_handle_url_dispatch (pkg ver : String) (c : connection) (u : String)
    (hu : c.url = some u) :
    (u = "/" → handle_url pkg ver c = some { c with log := c.log ++ [handle_root] }) ∧
    (u = "/style" → handle_url pkg ver c = some { c with log := c.log ++ [handle_css] }) ∧
    (u = "/status" →
      handle_url pkg ver c = some { c with log := c.log ++ [handle_status] }) ∧
    (u = "/listen" →
      handle_url pkg ver c = some { c with log := c.log ++ [handle_listen] }) ∧
    (pa_startswith u "/listen/source/" = true →
      handle_url pkg ver c =
        some { c with log := c.log ++ [ handle_listen_prefix ⟨u.data.drop 15⟩] } ∧
      u = "/listen/source/" ++ ⟨u.data.drop 15⟩ ∧
      u ≠ "/" ∧ u ≠ "/style" ∧ u ≠ "/status" ∧ u ≠ "/listen") ∧
    (∀ name : String, u = "/listen/source/" ++ name →
      handle_url pkg ver c =
        some { c with log := c.log ++ [ handle_listen_prefix name] }) ∧
    (u ≠ "/" → u ≠ "/style" → u ≠ "/status" → u ≠ "/listen" →
      pa_startswith u "/listen/source/" = false →
      handle_url pkg ver c = some
        { c with log := c.log ++
            [ioline_puts (http_response_text pkg ver 404 "Not Found" MIME_HTML),
             ioline_puts (HTML_HEADER "Not Found" ++ "Not Found" ++ HTML_FOOTER),
             ioline_defer_close] }) := by
  have hlen : ("/listen/source/" : String).length + 1 - 1 = 15 := by decide
  have hpre : ∀ v : String, pa_startswith v "/listen/source/" = true →
      v = "/listen/source/" ++ ⟨v.data.drop 15⟩ ∧
      v ≠ "/" ∧ v ≠ "/style" ∧ v ≠ "/status" ∧ v ≠ "/listen" := by
    intro v hv
    obtain ⟨l⟩ := v
    simp only [pa_startswith, List.isPrefixOf_iff_prefix] at hv
    obtain ⟨t, ht⟩ := hv
    subst ht
    refine ⟨?_, ?_, ?_, ?_, ?_⟩
    · apply String.ext
      simp [String.data_append]
    all_goals
      intro h
      have := congrArg String.length h
      simp [String.length] at this
  refine ⟨?_, ?_, ?_, ?_, ?_, ?_, ?_⟩
  · intro h; subst h; simp [handle_url, hu]
  · intro h; subst h; simp [handle_url, hu]
  · intro h; subst h; simp [handle_url, hu]
  · intro h; subst h; simp [handle_url, hu]
  · intro h
    obtain ⟨h0, h1, h2, h3, h4⟩ := hpre u h
    refine ⟨?_, h0, h1, h2, h3, h4⟩
    simp [handle_url, hu, h, h1, h2, h3, h4, str_advance, hlen]
  · intro name h
    have hs : pa_startswith u "/listen/source/" = true := by
      rw [h]; exact pa_startswith_append _ _
    obtain ⟨_, h1, h2, h3, h4⟩ := hpre u hs
    have hadv : str_advance u 15 = name := by
      rw [h]; exact str_advance_append "/listen/source/" name
    simp [handle_url, hu, hs, h1, h2, h3, h4, hlen, hadv]
  · intro h1 h2 h3 h4 h5
    simp [handle_url, hu, h1, h2, h3, h4, h5, html_response, http_response]

/-- C11 at the urls `/listen/`, the empty url and `/Style`: each gets the 404 reply;
and `/listen/source/` alone runs the streaming handler on the empty name. -/
theorem C11_handle_url_dispatch_witness :
    (∀ u ∈ ["/listen/", "", "/Style"],
      handle_url "pulseaudio" "0.9" { new_connection with url := some u } = some
        { new_connection with
          url := some u
          log := [ioline_puts (http_response_text "pulseaudio" "0.9" 404 "Not Found" MIME_HTML),
            ioline_puts (HTML_HEADER "Not Found" ++ "Not Found" ++ HTML_FOOTER),
            ioline_defer_close] }) ∧
    handle_url "pulseaudio" "0.9" { new_connection with url := some "/listen/source/" } =
      some { new_connection with
        url := some "/listen/source/"
        log := [ handle_listen_prefix ""] } := by
  refine ⟨?_, ?_⟩
  · intro u hu
    simp only [List.mem_cons, List.mem_singleton, List.not_mem_nil, or_false] at hu
    rcases hu with h | h | h <;> subst h <;>
      exact (C11_handle_url_dispatch "pulseaudio" "0.9" { new_connection with url := some _ }
        _ rfl).2.2.2.2.2.2 (by decide) (by decide) (by decide) (by decide) (by decide)
  · exact (C11_handle_url_dispatch "pulseaudio" "0.9"
      { new_connection with url := some "/listen/source/" }
      "/listen/source/" rfl).2.2.2.2.2.1 "" (by decide)

/-! ## The header state and the url invariant -/

/-- A line the specification calls empty also is empty or begins with a blank byte. -/
theorem starts_blank_of_spec_empty (s : String) (h : spec_empty_line s = true) :
    starts_blank s = true := by
  obtain ⟨l⟩ := s
  cases l with
  | nil => rfl
  | cons ch t =>
    simp only [spec_empty_line, List.all_cons, Bool.and_eq_true] at h
    simpa [starts_blank] using h.1

/-- With a stored url the dispatcher returns a connection that differs only by a
longer log: every branch calls a handler or writes the 404 reply. -/
theorem handle_url_log (pkg ver : String) (c : connection) (u : String)
    (hu : c.url = some u) :
    ∃ c1 ext, handle_url pkg ver c = some c1 ∧ c1.state = c.state ∧ c1.url = c.url ∧
      ext ≠ [] ∧ c1.log = c.log ++ ext := by
  unfold handle_url
  rw [hu]
  simp only
  split_ifs
  · exact ⟨_, [_], rfl, rfl, rfl, by simp, rfl⟩
  · exact ⟨_, [_], rfl, rfl, rfl, by simp, rfl⟩
  · exact ⟨_, [_], rfl, rfl, rfl, by simp, rfl⟩
  · exact ⟨_, [_], rfl, rfl, rfl, by simp, rfl⟩
  · exact ⟨_, [_], rfl, rfl, rfl, by simp, rfl⟩
  · exact ⟨_, [ioline_puts (http_response_text pkg ver 404 "Not Found" MIME_HTML),
      ioline_puts (HTML_HEADER "Not Found" ++ "Not Found" ++ HTML_FOOTER),
      ioline_defer_close], rfl, rfl, by simp [html_response, http_response, hu], by simp,
      by simp [html_response, http_response]⟩

/-- C15, the claim as stated fails: in `STATE_MIME_HEADER` the continuation line
` charset=utf-8`, which is not empty in the specification's sense, is not ignored: the
dispatcher runs (here the root handler) and the state becomes `STATE_DATA`. -/
theorem C15_continuation_line_dispatches :
    spec_empty_line " charset=utf-8" = false ∧
    line_callback "pulseaudio" "0.9" (some " charset=utf-8")
        { state := STATE_MIME_HEADER, url := some "/", log := [] } =
      some { state := STATE_DATA, url := some "/", log := [handle_root] } := by
  decide

/-- C15, amended: in `STATE_MIME_HEADER` a line whose first byte is something other
than a space, CR or LF is ignored: the connection is returned unchanged (no dispatch,
nothing written, state still `STATE_MIME_HEADER`). A line with no bytes, or beginning
with a space, CR or LF, runs the dispatcher on the stored url and moves to
`STATE_DATA`; the lines made only of spaces, CRs and LFs are among these. -/
theorem C15_mime_header_step (pkg ver : String) (c : connection) (u s : String)
    (hs : c.state = STATE_MIME_HEADER) (hu : c.url = some u) :
    (starts_blank s = false → line_callback pkg ver (some s) c = some c) ∧
    (starts_blank s = true →
      line_callback pkg ver (some s) c =
        handle_url pkg ver { c with state := STATE_DATA } ∧
      ∃ c1 ext, line_callback pkg ver (some s) c = some c1 ∧ c1.state = STATE_DATA ∧
        c1.url = some u ∧ ext ≠ [] ∧ c1.log = c.log ++ ext) ∧
    (spec_empty_line s = true → starts_blank s = true) := by
  refine ⟨?_, ?_, starts_blank_of_spec_empty s⟩
  · intro hb
    have h0 : strcspn s " \r\n" ≠ 0 := fun h => by
      rw [(strcspn_eq_zero_iff s).mp h] at hb; exact Bool.noConfusion hb
    simp [line_callback, hs, h0]
  · intro hb
    have h0 : strcspn s " \r\n" = 0 := (strcspn_eq_zero_iff s).mpr hb
    have hstep : line_callback pkg ver (some s) c =
        handle_url pkg ver { c with state := STATE_DATA } := by
      simp [line_callback, hs, h0]
    refine ⟨hstep, ?_⟩
    rw [hstep]
    obtain ⟨c1, ext, h1, h2, h3, h4, h5⟩ :=
      handle_url_log pkg ver { c with state := STATE_DATA } u hu
    exact ⟨c1, ext, h1, h2, by rw [h3]; exact hu, h4, h5⟩

/-- C15 amended, at a header line and at a continuation line of a connection that
asked for `/style`. -/
theorem C15_mime_header_step_witness :
    line_callback "pulseaudio" "0.9" (some "Host: example")
        { state := STATE_MIME_HEADER, url := some "/style", log := [] } =
      some { state := STATE_MIME_HEADER, url := some "/style", log := [] } ∧
    line_callback "pulseaudio" "0.9" (some " charset=utf-8")
        { state := STATE_MIME_HEADER, url := some "/style", log := [] } =
      handle_url "pulseaudio" "0.9" { state := STATE_DATA, url := some "/style", log := [] } :=
  ⟨(C15_mime_header_step "pulseaudio" "0.9"
      { state := STATE_MIME_HEADER, url := some "/style", log := [] } "/style"
      "Host: example" rfl rfl).1 (by decide),
   ((C15_mime_header_step "pulseaudio" "0.9"
      { state := STATE_MIME_HEADER, url := some "/style", log := [] } "/style"
      " charset=utf-8" rfl rfl).2.1 (by decide)).1⟩

/-- Once the request line is accepted the url is never written again. -/
theorem feed_lines_keeps_url (pkg ver : String) (lines : List String) :
    ∀ (c : connection) (u : String), c.state ≠ STATE_REQUEST_LINE → c.url = some u →
      ∃ c1, feed_lines pkg ver c lines = some c1 ∧ c1.url = some u ∧
        c1.state ≠ STATE_REQUEST_LINE := by
  induction lines with
  | nil =>
    intro c u hs hu
    exact ⟨c, rfl, hu, hs⟩
  | cons s rest ih =>
    intro c u hs hu
    cases hst : c.state with
    | STATE_REQUEST_LINE => exact absurd hst hs
    | STATE_DATA =>
      obtain ⟨c1, h1, h2, h3⟩ := ih c u hs hu
      exact ⟨c1, by simp [feed_lines, line_callback, hst, h1], h2, h3⟩
    | STATE_MIME_HEADER =>
      by_cases h0 : strcspn s " \r\n" = 0
      · obtain ⟨c2, ext, e1, e2, e3, -, -⟩ :=
          handle_url_log pkg ver { c with state := STATE_DATA } u hu
        have hs2 : c2.state ≠ STATE_REQUEST_LINE := by rw [e2]; simp
        obtain ⟨c1, h1, h2, h3⟩ := ih c2 u hs2 (by rw [e3]; exact hu)
        exact ⟨c1, by simp [feed_lines, line_callback, hst, h0, e1, h1], h2, h3⟩
      · obtain ⟨c1, h1, h2, h3⟩ := ih c u hs hu
        exact ⟨c1, by simp [feed_lines, line_callback, hst, h0, h1], h2, h3⟩

/-- From `STATE_REQUEST_LINE` the parser either stays there, the url untouched, or
has stored the url of the first line that starts with `GET `. -/
theorem feed_lines_stores_first_get (pkg ver : String) (lines : List String) :
    ∀ (c : connection), c.state = STATE_REQUEST_LINE →
      ∃ c1, feed_lines pkg ver c lines = some c1 ∧
        ((c1.state = STATE_REQUEST_LINE ∧ c1.url = c.url) ∨
         (c1.state ≠ STATE_REQUEST_LINE ∧
          ∃ pre g post, lines = pre ++ g :: post ∧
            (∀ s ∈ pre, pa_startswith s "GET " = false) ∧
            pa_startswith g "GET " = true ∧ c1.url = some (request_url g))) := by
  induction lines with
  | nil =>
    intro c hs
    exact ⟨c, rfl, Or.inl ⟨hs, rfl⟩⟩
  | cons s rest ih =>
    intro c hs
    by_cases hg : pa_startswith s "GET " = true
    · obtain ⟨c1, h1, h2, h3⟩ := feed_lines_keeps_url pkg ver rest
        { c with url := some (request_url s), state := STATE_MIME_HEADER }
        (request_url s) (by simp) rfl
      refine ⟨c1, ?_, Or.inr ⟨h3, [], s, rest, rfl, by simp, hg, h2⟩⟩
      simpa [feed_lines, line_callback, hs, hg, request_url] using h1
    · have hg' : pa_startswith s "GET " = false := by simpa using hg
      obtain ⟨c1, h1, h2⟩ := ih
        (html_response pkg ver c 500 "Internal Server Error" none) hs
      refine ⟨c1, by simp [feed_lines, line_callback, hs, hg', h1], ?_⟩
      rcases h2 with ⟨h3, h4⟩ | ⟨h3, pre, g, post, h4, h5, h6, h7⟩
      · exact Or.inl ⟨h3, h4⟩
      · refine Or.inr ⟨h3, s :: pre, g, post, by simp [h4], ?_, h6, h7⟩
        intro x hx
        rcases List.mem_cons.mp hx with h | h
        · rw [h]; exact hg'
        · exact h5 x h

/-- The stored url is empty exactly when nothing, or a stop byte, follows `GET `. -/
theorem request_url_empty_iff (g : String) :
    request_url g = "" ↔ ∀ ch, (str_advance g 4).data.head? = some ch → ch ∈ url_stops := by
  have hrej : (" \r\n\t?" : String).data = url_stops := by decide
  unfold request_url
  generalize str_advance g 4 = r
  obtain ⟨l⟩ := r
  simp only [pa_xstrndup, strcspn, hrej, take_length_takeWhile]
  cases l with
  | nil => simp
  | cons a t =>
    simp only [url_stops, List.mem_cons, List.mem_singleton, List.not_mem_nil, or_false,
      List.head?_cons, Option.some.injEq, forall_eq']
    constructor
    · intro h
      by_contra hn
      push_neg at hn
      have := congrArg String.data h
      simp [List.takeWhile_cons, hn] at this
    · intro h
      rcases h with h | h | h | h | h <;> subst h <;> simp [List.takeWhile_cons]

/-- C17, the claim as stated fails: after the request line `GET ` (or `GET ?x`) and a
blank line the parser is in `STATE_DATA` and the stored url is the empty string. -/
theorem C17_data_with_empty_url :
    (∃ c, feed_lines "pulseaudio" "0.9" new_connection ["GET ", ""] = some c ∧
      c.state = STATE_DATA ∧ c.url = some "") ∧
    (∃ c, feed_lines "pulseaudio" "0.9" new_connection ["GET ?x", ""] = some c ∧
      c.state = STATE_DATA ∧ c.url = some "") :=
  ⟨⟨_, rfl, by decide, by decide⟩, ⟨_, rfl, by decide, by decide⟩⟩

/-- C17, amended: for every sequence of lines fed to `line_callback` on a fresh
connection the parser returns, and whenever it is in `STATE_DATA` the stored url is a
string, never `NULL`: the token after `GET ` of the first line that starts with
`GET `. That string is empty exactly when nothing, or one of space, CR, LF, tab and
`?`, follows `GET ` on that line. -/
theorem C17_data_url_is_first_get_token (pkg ver : String) (lines : List String) :
    ∃ c, feed_lines pkg ver new_connection lines = some c ∧
      (c.state = STATE_DATA →
        ∃ pre g post, lines = pre ++ g :: post ∧
          (∀ s ∈ pre, pa_startswith s "GET " = false) ∧
          pa_startswith g "GET " = true ∧
          c.url = some (request_url g) ∧
          (request_url g = "" ↔
            ∀ ch, (str_advance g 4).data.head? = some ch → ch ∈ url_stops)) := by
  obtain ⟨c, h1, h2⟩ := feed_lines_stores_first_get pkg ver lines new_connection rfl
  refine ⟨c, h1, ?_⟩
  intro hd
  rcases h2 with ⟨h3, -⟩ | ⟨-, pre, g, post, h4, h5, h6, h7⟩
  · rw [hd] at h3
    exact absurd h3 (by decide)
  · exact ⟨pre, g, post, h4, h5, h6, h7, request_url_empty_iff g⟩

/-- C17 amended, at a request for `/status` that follows a rejected `POST` line. -/
theorem C17_data_url_is_first_get_token_witness :
    ∃ c, feed_lines "pulseaudio" "0.9" new_connection
        ["POST / HTTP/1.0", "GET /status HTTP/1.0", ""] = some c ∧
      (c.state = STATE_DATA →
        ∃ pre g post, ["POST / HTTP/1.0", "GET /status HTTP/1.0", ""] = pre ++ g :: post ∧
          (∀ s ∈ pre, pa_startswith s "GET " = false) ∧
          pa_startswith g "GET " = true ∧
          c.url = some (request_url g) ∧
          (request_url g = "" ↔
            ∀ ch, (str_advance g 4).data.head? = some ch → ch ∈ url_stops)) :=
  C17_data_url_is_first_get_token "pulseaudio" "0.9"
    ["POST / HTTP/1.0", "GET /status HTTP/1.0", ""]

/-! ## Properties of the connection set -/

theorem remove_by_data_length_le (set : List struct_connection) (id : Nat) :
    (pa_idxset_remove_by_data set id).length ≤ set.length := by
  unfold pa_idxset_remove_by_data
  exact List.length_filter_le _ _

theorem connection_unlink_length_le (p : pa_http_protocol) (c : struct_connection) :
    (connection_unlink p c).1.connections.length ≤ p.connections.length := by
  simp only [connection_unlink]
  exact remove_by_data_length_le _ _

theorem idxset_put_length_le (set : List struct_connection) (c : struct_connection) :
    (pa_idxset_put set c).length ≤ set.length + 1 := by
  unfold pa_idxset_put
  split_ifs <;> simp

theorem disconnect_fold_length_le (m : Nat) (l : List struct_connection) :
    ∀ acc : pa_http_protocol × List effect,
      (l.foldl
        (fun acc c =>
          if c.module = m then
            ((connection_unlink acc.1 c).1, acc.2 ++ (connection_unlink acc.1 c).2)
          else acc) acc).1.connections.length ≤ acc.1.connections.length := by
  induction l with
  | nil => intro acc; exact Nat.le_refl _
  | cons c rest ih =>
    intro acc
    simp only [List.foldl_cons]
    by_cases hm : c.module = m
    · simp only [hm, if_true]
      exact Nat.le_trans (ih _) (connection_unlink_length_le _ _)
    · simp only [hm, if_false]
      exact ih acc

theorem disconnect_length_le (p : pa_http_protocol) (m : Nat) :
    (pa_http_protocol_disconnect p m).1.connections.length ≤ p.connections.length :=
  disconnect_fold_length_le m p.connections (p, [])

theorem connect_length_le (p : pa_http_protocol) (io m addr : Nat) (client : Option Nat)
    (h : p.connections.length ≤ MAX_CONNECTIONS) :
    (pa_http_protocol_connect p io m addr client).1.connections.length ≤ MAX_CONNECTIONS := by
  unfold pa_http_protocol_connect
  by_cases hfull : p.connections.length + 1 > MAX_CONNECTIONS
  · simp only [hfull, if_true]
    exact h
  · simp only [hfull, if_false]
    cases client with
    | none => exact Nat.le_trans (connection_unlink_length_le _ _) h
    | some cl =>
      simp only
      have := idxset_put_length_le p.connections
        { id := addr, io := none, line := some io, output_memblockq := none,
          source_output := none, client := some cl, state := STATE_REQUEST_LINE,
          url := none, module := m }
      omega

theorem apply_op_length_le (p : pa_http_protocol) (op : protocol_op)
    (h : p.connections.length ≤ MAX_CONNECTIONS) :
    (apply_op p op).connections.length ≤ MAX_CONNECTIONS := by
  cases op with
  | connect io m addr client => exact connect_length_le p io m addr client h
  | unlink id =>
    simp only [apply_op]
    cases p.connections.find? (fun x => x.id == id) with
    | none => exact h
    | some c => exact Nat.le_trans (connection_unlink_length_le _ _) h
  | disconnect m => exact Nat.le_trans (disconnect_length_le p m) h

theorem apply_ops_length_le (ops : List protocol_op) :
    ∀ p : pa_http_protocol, p.connections.length ≤ MAX_CONNECTIONS →
      (apply_ops p ops).connections.length ≤ MAX_CONNECTIONS := by
  induction ops with
  | nil => intro p h; exact h
  | cons op rest ih =>
    intro p h
    simp only [apply_ops, List.foldl_cons]
    exact ih _ (apply_op_length_le p op h)

/-- C12: `pa_http_protocol_connect` puts a new connection into the protocol's set only
if the set holds strictly fewer than 10 connections. When it holds 10 or more, the
only calls are the warning and the release of the iochannel (no line reader, no client,
no write) and the set is unchanged. Hence, starting from the empty set, after any
sequence of connect, unlink and disconnect operations the set holds at most 10
connections. -/
theorem C12_connection_cap (p : pa_http_protocol) (io m addr : Nat) (client : Option Nat) :
    ((∃ x ∈ (pa_http_protocol_connect p io m addr client).1.connections,
        x ∉ p.connections) → p.connections.length < 10) ∧
    (10 ≤ p.connections.length →
      pa_http_protocol_connect p io m addr client =
        (p, [pa_log_warning, pa_iochannel_free io])) ∧
    (∀ (refcnt : Nat) (ops : List protocol_op),
      (apply_ops { refcnt := refcnt, connections := [] } ops).connections.length ≤ 10) := by
  refine ⟨?_, ?_, ?_⟩
  · rintro ⟨x, hx, hnx⟩
    by_contra hfull
    have hfull' : p.connections.length + 1 > MAX_CONNECTIONS := by
      simp only [MAX_CONNECTIONS]; omega
    simp only [pa_http_protocol_connect, hfull', if_true] at hx
    exact hnx hx
  · intro hfull
    have hfull' : p.connections.length + 1 > MAX_CONNECTIONS := by
      simp only [MAX_CONNECTIONS]; omega
    simp only [pa_http_protocol_connect, hfull', if_true]
  · intro refcnt ops
    exact apply_ops_length_le ops _ (by simp [MAX_CONNECTIONS])

/-- C12 at a full set: the eleventh connect is dropped; and at an operation sequence
that connects twelve times. -/
theorem C12_connection_cap_witness :
    pa_http_protocol_connect { refcnt := 1, connections := ten_connections } 110 1 10
        (some 210) =
      ({ refcnt := 1, connections := ten_connections },
        [pa_log_warning, pa_iochannel_free 110]) ∧
    (apply_ops { refcnt := 1, connections := [] }
      ((List.range 12).map (fun k => protocol_op.connect (100 + k) 1 k
        (some (200 + k))))).connections.length ≤ 10 :=
  ⟨(C12_connection_cap { refcnt := 1, connections := ten_connections } 110 1 10
      (some 210)).2.1 (by decide),
   (C12_connection_cap { refcnt := 1, connections := [] } 0 0 0 none).2.2 1 _⟩

/-- Twelve connects in a row on an empty set leave exactly ten connections. -/
theorem twelve_connects_leave_ten :
    (apply_ops { refcnt := 1, connections := [] }
      ((List.range 12).map (fun k => protocol_op.connect (100 + k) 1 k
        (some (200 + k))))).connections.length = 10 := by
  decide

/-- Below the cap, with a client and a fresh address, the connection is admitted. -/
theorem connect_admits (p : pa_http_protocol) (io m addr cl : Nat)
    (hlt : p.connections.length < 10) (hfresh : ∀ x ∈ p.connections, x.id ≠ addr) :
    pa_http_protocol_connect p io m addr (some cl) =
      ({ p with connections := p.connections ++
          [{ id := addr, io := none, line := some io, output_memblockq := none,
             source_output := none, client := some cl, state := STATE_REQUEST_LINE,
             url := none, module := m }] },
        [pa_ioline_new io, pa_client_new cl]) := by
  have hfull : ¬ (p.connections.length + 1 > MAX_CONNECTIONS) := by
    simp only [MAX_CONNECTIONS]; omega
  have hany : p.connections.any (fun x => x.id == addr) = false := by
    rw [List.any_eq_false]
    intro x hx
    simpa using hfresh x hx
  simp only [pa_http_protocol_connect, hfull, if_false, pa_idxset_put, hany]
  rfl

/-! ## Properties of the protocol singleton -/

/-- With enough fuel the unlink loop of the last unref ends with an empty set, having
freed every connection that was in it. -/
theorem unlink_all_spec (fuel : Nat) :
    ∀ p : pa_http_protocol, p.connections.length ≤ fuel →
      ∃ p1 eff, unlink_all fuel p = some (p1, eff) ∧ p1.connections = [] ∧
        p1.refcnt = p.refcnt ∧ ∀ x ∈ p.connections, pa_xfree x.id ∈ eff := by
  induction fuel with
  | zero =>
    intro p hp
    have hnil : p.connections = [] := List.length_eq_zero.mp (Nat.le_zero.mp hp)
    refine ⟨p, [], ?_, hnil, rfl, ?_⟩
    · unfold unlink_all; simp [hnil]
    · intro x hx; rw [hnil] at hx; exact absurd hx (List.not_mem_nil _)
  | succ n ih =>
    intro p hp
    cases hcs : p.connections with
    | nil =>
      refine ⟨p, [], ?_, hcs, rfl, ?_⟩
      · unfold unlink_all; simp [hcs]
      · intro x hx; exact absurd hx (List.not_mem_nil _)
    | cons c rest =>
      have hlen : (connection_unlink p c).1.connections.length ≤ n := by
        have h1 : (connection_unlink p c).1.connections.length ≤ rest.length := by
          simp only [connection_unlink, pa_idxset_remove_by_data, hcs, List.filter_cons,
            bne_self_eq_false, Bool.false_eq_true, if_false]
          exact List.length_filter_le _ _
        rw [hcs] at hp
        simp only [List.length_cons] at hp
        omega
      obtain ⟨p1, eff, h1, h2, h3, h4⟩ := ih (connection_unlink p c).1 hlen
      refine ⟨p1, (connection_unlink p c).2 ++ eff, ?_, h2, ?_, ?_⟩
      · rw [unlink_all]
        simp [hcs, h1]
      · rw [h3]; rfl
      · intro x hx
        by_cases hid : x.id = c.id
        · apply List.mem_append_left
          simp [connection_unlink, hid]
        · apply List.mem_append_right
          apply h4
          simp only [connection_unlink, pa_idxset_remove_by_data, hcs]
          rw [List.mem_filter]
          exact ⟨hx, by simpa using hid⟩

/-- A registered live handle: `pa_http_protocol_get` returns it with one more
reference and leaves the registry alone. -/
theorem get_registered (c : pa_core) (p : Nat) (h : pa_http_protocol) (addr : Nat)
    (hs : c.shared "http-protocol" = some p) (hp : c.protocols p = some h)
    (hr : 1 ≤ h.refcnt) :
    ∃ c1, pa_http_protocol_get c addr = some (c1, p) ∧
      c1.protocols p = some { h with refcnt := h.refcnt + 1 } ∧
      c1.shared = c.shared := by
  refine ⟨{ c with
      protocols := Function.update c.protocols p (some { h with refcnt := h.refcnt + 1 }) },
    ?_, ?_, rfl⟩
  · simp [pa_http_protocol_get, pa_shared_get, hs, pa_http_protocol_ref, hp, hr]
  · simp

/-- Dropping a reference that is not the last one only lowers the count. -/
theorem unref_not_last (c : pa_core) (p : Nat) (h : pa_http_protocol)
    (hp : c.protocols p = some h) (hr : 2 ≤ h.refcnt) :
    ∃ c1, pa_http_protocol_unref c p = some (c1, []) ∧
      c1.protocols p = some { h with refcnt := h.refcnt - 1 } ∧
      c1.shared = c.shared := by
  refine ⟨{ c with
      protocols := Function.update c.protocols p (some { h with refcnt := h.refcnt - 1 }) },
    ?_, ?_, rfl⟩
  · have h1 : h.refcnt ≥ 1 := by omega
    have h2 : h.refcnt - 1 > 0 := by omega
    simp [pa_http_protocol_unref, hp, h1, h2]
  · simp

/-- With nothing registered `pa_http_protocol_get` creates a handle with one reference
and an empty set at the new address and registers it. -/
theorem get_unregistered (c : pa_core) (addr : Nat)
    (hs : c.shared "http-protocol" = none) :
    ∃ c1, pa_http_protocol_get c addr = some (c1, addr) ∧
      c1.protocols addr = some { refcnt := 1, connections := [] } ∧
      c1.shared "http-protocol" = some addr := by
  refine ⟨{ shared := Function.update c.shared "http-protocol" (some addr),
            protocols := Function.update c.protocols addr
              (some { refcnt := 1, connections := [] }) }, ?_, ?_, ?_⟩
  · simp [pa_http_protocol_get, pa_shared_get, hs, http_protocol_new, pa_shared_set]
  · simp
  · simp

/-- The last unref unlinks every connection, removes the registry entry and frees the
handle. -/
theorem unref_last (c : pa_core) (p : Nat) (h : pa_http_protocol)
    (hs : c.shared "http-protocol" = some p) (hp : c.protocols p = some h)
    (hr : h.refcnt = 1) :
    ∃ c1 eff, pa_http_protocol_unref c p = some (c1, eff) ∧
      c1.shared "http-protocol" = none ∧ c1.protocols p = none ∧
      ∀ x ∈ h.connections, pa_xfree x.id ∈ eff := by
  obtain ⟨p1, eff, h1, -, -, h4⟩ :=
    unlink_all_spec h.connections.length { h with refcnt := h.refcnt - 1 } (Nat.le_refl _)
  refine ⟨{ shared := Function.update c.shared "http-protocol" none,
            protocols := Function.update c.protocols p none }, eff, ?_, ?_, ?_, h4⟩
  · rw [hr] at h1
    simp only [Nat.sub_self] at h1
    simp [pa_http_protocol_unref, hp, hr, h1, pa_shared_remove, hs]
  · simp
  · simp

/-- C13: over the model of the shared registry. (1) When a handle is registered under
`http-protocol` with reference count n ≥ 1, `pa_http_protocol_get` returns that handle
with count n+1; a following `pa_http_protocol_unref` restores count n and leaves the
handle, its connection set included, and the registration as they were; a second get
returns the same handle again. (2) On a core with no registered handle get creates one
with count 1, registers it, and a second get returns the same handle. (3) The unref
that brings the count to 0 unlinks every remaining connection, removes the registry
entry and frees the handle. -/
theorem C13_protocol_get_unref (c : pa_core) :
    (∀ (p : Nat) (h : pa_http_protocol) (addr addr2 : Nat),
      c.shared "http-protocol" = some p → c.protocols p = some h → 1 ≤ h.refcnt →
      ∃ c1, pa_http_protocol_get c addr = some (c1, p) ∧
        c1.protocols p = some { h with refcnt := h.refcnt + 1 } ∧
        c1.shared "http-protocol" = some p ∧
        (∃ c2, pa_http_protocol_unref c1 p = some (c2, []) ∧
          c2.protocols p = some h ∧ c2.shared "http-protocol" = some p) ∧
        (∃ c3, pa_http_protocol_get c1 addr2 = some (c3, p))) ∧
    (∀ addr addr2 : Nat, c.shared "http-protocol" = none →
      ∃ c1, pa_http_protocol_get c addr = some (c1, addr) ∧
        c1.protocols addr = some { refcnt := 1, connections := [] } ∧
        c1.shared "http-protocol" = some addr ∧
        ∃ c2, pa_http_protocol_get c1 addr2 = some (c2, addr)) ∧
    (∀ (p : Nat) (h : pa_http_protocol),
      c.shared "http-protocol" = some p → c.protocols p = some h → h.refcnt = 1 →
      ∃ c1 eff, pa_http_protocol_unref c p = some (c1, eff) ∧
        c1.shared "http-protocol" = none ∧ c1.protocols p = none ∧
        ∀ x ∈ h.connections, pa_xfree x.id ∈ eff) := by
  refine ⟨?_, ?_, ?_⟩
  · intro p h addr addr2 hs hp hr
    obtain ⟨c1, g1, g2, g3⟩ := get_registered c p h addr hs hp hr
    have hs1 : c1.shared "http-protocol" = some p := by rw [g3]; exact hs
    obtain ⟨c2, u1, u2, u3⟩ := unref_not_last c1 p _ g2 (by simp; omega)
    obtain ⟨c3, k1, -, -⟩ := get_registered c1 p _ addr2 hs1 g2 (by simp)
    refine ⟨c1, g1, g2, hs1, ⟨c2, u1, ?_, by rw [u3]; exact hs1⟩, ⟨c3, k1⟩⟩
    rw [u2]
    simp
  · intro addr addr2 hs
    obtain ⟨c1, g1, g2, g3⟩ := get_unregistered c addr hs
    obtain ⟨c2, k1, -, -⟩ := get_registered c1 addr _ addr2 g3 g2 (by simp)
    exact ⟨c1, g1, g2, g3, c2, k1⟩
  · intro p h hs hp hr
    exact unref_last c p h hs hp hr

/-- C13 on the empty core: the first get creates the handle at the address it is given
and a second get returns the same handle. On the core with a registered handle of one
reference: get returns it with two references and the unref after it puts the handle
back as it was; the unref of the single reference frees both connections and leaves
nothing registered. -/
theorem C13_protocol_get_unref_witness :
    (∃ c1, pa_http_protocol_get empty_core 7 = some (c1, 7) ∧
      c1.protocols 7 = some { refcnt := 1, connections := [] } ∧
      c1.shared "http-protocol" = some 7 ∧
      ∃ c2, pa_http_protocol_get c1 8 = some (c2, 7)) ∧
    (∃ c1, pa_http_protocol_get registered_core 8 = some (c1, 7) ∧
      c1.protocols 7 = some { refcnt := 2, connections := ten_connections.take 2 } ∧
      c1.shared "http-protocol" = some 7 ∧
      (∃ c2, pa_http_protocol_unref c1 7 = some (c2, []) ∧
        c2.protocols 7 = some { refcnt := 1, connections := ten_connections.take 2 } ∧
        c2.shared "http-protocol" = some 7) ∧
      (∃ c3, pa_http_protocol_get c1 9 = some (c3, 7))) ∧
    (∃ c1 eff, pa_http_protocol_unref registered_core 7 = some (c1, eff) ∧
      c1.shared "http-protocol" = none ∧ c1.protocols 7 = none ∧
      ∀ x ∈ ten_connections.take 2, pa_xfree x.id ∈ eff) :=
  ⟨(C13_protocol_get_unref empty_core).2.1 7 8 rfl,
   (C13_protocol_get_unref registered_core).1 7
     { refcnt := 1, connections := ten_connections.take 2 } 8 9 (by decide) (by decide)
     (by decide),
   (C13_protocol_get_unref registered_core).2.2 7
     { refcnt := 1, connections := ten_connections.take 2 } (by decide) (by decide) rfl⟩

/-- The last unref on the registered core, evaluated: both connections are unlinked in
set order (client freed, line reader released, struct freed), the registry entry and
the handle are gone. -/
theorem last_unref_example :
    (pa_http_protocol_unref registered_core 7).map
        (fun r => (r.1.shared "http-protocol", r.1.protocols 7, r.2)) =
      some (none, none,
        [pa_client_free 200, pa_ioline_unref 100, pa_xfree 0,
         pa_client_free 201, pa_ioline_unref 101, pa_xfree 1]) := by
  decide

/-! ## Properties of the write pump -/

theorem drop_bytes_flatten (cs : List (List Nat)) :
    ∀ n, (drop_bytes cs n).flatten = cs.flatten.drop n := by
  induction cs with
  | nil => intro n; simp [drop_bytes]
  | cons chunk rest ih =>
    intro n
    by_cases h : n < chunk.length
    · simp only [drop_bytes, h, if_true, List.flatten_cons]
      rw [List.drop_append_of_le_length (Nat.le_of_lt h)]
    · simp only [drop_bytes, h, if_false, List.flatten_cons, ih]
      rw [List.drop_append_eq_append_drop, List.drop_eq_nil_of_le (Nat.le_of_not_lt h)]
      rfl

theorem drop_bytes_wf (cs : List (List Nat)) :
    ∀ n, (∀ chunk ∈ cs, chunk ≠ []) → ∀ chunk ∈ drop_bytes cs n, chunk ≠ [] := by
  induction cs with
  | nil => intro n _ chunk hc; simp [drop_bytes] at hc
  | cons a rest ih =>
    intro n hwf chunk hc
    by_cases h : n < a.length
    · simp only [drop_bytes, h, if_true, List.mem_cons] at hc
      rcases hc with hc | hc
      · subst hc
        intro hnil
        have := congrArg List.length hnil
        simp at this
        omega
      · exact hwf chunk (List.mem_cons_of_mem _ hc)
    · simp only [drop_bytes, h, if_false] at hc
      exact ih _ (fun x hx => hwf x (List.mem_cons_of_mem _ hx)) chunk hc

theorem bytes_written_append (a b : List effect) :
    bytes_written (a ++ b) = bytes_written a ++ bytes_written b := by
  induction a with
  | nil => rfl
  | cons e rest ih =>
    cases e <;> simp [bytes_written, ih]

/-- One `do_write` on a connection with a well-formed queue and an iochannel: it
returns, queue and iochannel stay in place, and the bytes the socket accepted followed
by the bytes left in the queue are the bytes that were in the queue. -/
theorem do_write_spec (c : struct_connection) (q : pa_memblockq) (io : Nat)
    (w : write_outcome) (hq : c.output_memblockq = some q) (hio : c.io = some io)
    (hwf : queue_wf q) :
    ∃ ret c1 eff q1, do_write c w = some (ret, c1, eff) ∧
      c1.output_memblockq = some q1 ∧ c1.io = some io ∧ queue_wf q1 ∧
      q1.maxlength = q.maxlength ∧
      bytes_written eff ++ q1.chunks.flatten = q.chunks.flatten := by
  cases hcs : q.chunks with
  | nil =>
    refine ⟨0, c, [], q, ?_, hq, hio, hwf, rfl, ?_⟩
    · simp [do_write, hq, pa_memblockq_peek, hcs]
    · simp [bytes_written, hcs]
  | cons chunk rest =>
    have hne : chunk ≠ [] := hwf chunk (by rw [hcs]; exact List.mem_cons_self _ _)
    have hlen : chunk.length ≠ 0 := fun h => hne (List.length_eq_zero.mp h)
    cases w with
    | fails e =>
      by_cases he : e = EINTR ∨ e = EAGAIN
      · refine ⟨0, c, [pa_iochannel_write io []], q, ?_, hq, hio, hwf, rfl, ?_⟩
        · simp [do_write, hq, pa_memblockq_peek, hcs, hlen, hio, he]
        · simp [bytes_written, hcs]
      · refine ⟨-1, c, [pa_iochannel_write io [], pa_log_write_error], q, ?_, hq, hio, hwf,
          rfl, ?_⟩
        · simp [do_write, hq, pa_memblockq_peek, hcs, hlen, hio, he]
        · simp [bytes_written, hcs]
    | accepts room =>
      refine ⟨0, { c with output_memblockq := some (pa_memblockq_drop q (min room chunk.length)) },
        [pa_iochannel_write io (chunk.take (min room chunk.length))],
        pa_memblockq_drop q (min room chunk.length), ?_, rfl, hio, ?_, rfl, ?_⟩
      · simp [do_write, hq, pa_memblockq_peek, hcs, hlen, hio]
      · intro x hx
        exact drop_bytes_wf q.chunks _ hwf x hx
      · simp only [bytes_written, List.append_nil, pa_memblockq_drop, drop_bytes_flatten, hcs,
          List.flatten_cons]
        have hmin : min room chunk.length ≤ chunk.length := Nat.min_le_right _ _
        have htake : (chunk ++ rest.flatten).take (min room chunk.length) =
            chunk.take (min room chunk.length) := List.take_append_of_le_length hmin
        rw [← htake]
        exact List.take_append_drop _ _

/-- One `do_work` on a connection with a well-formed queue and an iochannel: it
returns, and if the connection survives, the bytes accepted followed by the bytes left
are the bytes that were queued. -/
theorem do_work_spec (p : pa_http_protocol) (c : struct_connection) (q : pa_memblockq)
    (io : Nat) (hungup writable : Bool) (w : write_outcome)
    (hq : c.output_memblockq = some q) (hio : c.io = some io) (hwf : queue_wf q) :
    ∃ p1 oc eff, do_work p c hungup writable w = some (p1, oc, eff) ∧
      ∀ c1, oc = some c1 →
        ∃ q1, c1.output_memblockq = some q1 ∧ c1.io = some io ∧ queue_wf q1 ∧
          q1.maxlength = q.maxlength ∧
          bytes_written eff ++ q1.chunks.flatten = q.chunks.flatten := by
  obtain ⟨ret, c1, eff, q1, h1, h2, h3, h4, h5, h6⟩ := do_write_spec c q io w hq hio hwf
  cases hungup with
  | true =>
    refine ⟨(connection_unlink p c).1, none, (connection_unlink p c).2,
      by simp [do_work, hio], ?_⟩
    intro c1 hc1
    exact absurd hc1 (by simp)
  | false =>
    cases writable with
    | false =>
      refine ⟨p, some c, [], by simp [do_work, hio], ?_⟩
      intro c2 hc2
      cases hc2
      exact ⟨q, hq, hio, hwf, rfl, by simp [bytes_written]⟩
    | true =>
      by_cases hret : ret < 0
      · refine ⟨(connection_unlink p c1).1, none, eff ++ (connection_unlink p c1).2,
          by simp [do_work, hio, h1, hret], ?_⟩
        intro c2 hc2
        exact absurd hc2 (by simp)
      · refine ⟨store_connection p c1, some c1, eff, by simp [do_work, hio, h1, hret], ?_⟩
        intro c2 hc2
        cases hc2
        exact ⟨q1, h2, h3, h4, h5, h6⟩

theorem push_align_wf (q : pa_memblockq) (chunk : List Nat) (hwf : queue_wf q)
    (hne : chunk ≠ []) : queue_wf (pa_memblockq_push_align q chunk) := by
  unfold pa_memblockq_push_align
  split_ifs
  · intro x hx
    simp only [List.mem_append, List.mem_singleton] at hx
    rcases hx with hx | hx
    · exact hwf x hx
    · rw [hx]; exact hne
  · exact hwf

theorem push_align_flatten (q : pa_memblockq) (chunk : List Nat)
    (hfit : pa_memblockq_fits q chunk = true) :
    (pa_memblockq_push_align q chunk).chunks.flatten = q.chunks.flatten ++ chunk := by
  simp [pa_memblockq_push_align, hfit]

/-- One delivery keeps the state well formed and, absent overflow, keeps the balance:
the bytes accepted so far plus the bytes queued grow by exactly the bytes pushed. -/
theorem bridge_step_spec (b : bridge) (e : bridge_event) (hb : bridge_wf b)
    (he : event_wf e) :
    ∃ b1, bridge_step b e = some b1 ∧ bridge_wf b1 ∧
      (b1.overflowed = false → b.overflowed = false) ∧
      (b1.overflowed = false → ∀ c1, b1.c = some c1 →
        ∃ c q q1, b.c = some c ∧ c.output_memblockq = some q ∧
          c1.output_memblockq = some q1 ∧
          bytes_written b1.out ++ q1.chunks.flatten =
            bytes_written b.out ++ q.chunks.flatten ++ bytes_pushed [e]) := by
  cases hc : b.c with
  | none =>
    refine ⟨b, by simp [bridge_step, hc], hb, id, ?_⟩
    intro _ c1 hc1
    rw [hc] at hc1
    exact absurd hc1 (by simp)
  | some c =>
    obtain ⟨q, io, hq, hio, hwf⟩ := hb c hc
    cases e with
    | io_ready hungup writable w =>
      obtain ⟨p1, oc, eff, h1, h2⟩ := do_work_spec b.p c q io hungup writable w hq hio hwf
      refine ⟨{ b with p := p1, c := oc, out := b.out ++ eff },
        by simp [bridge_step, hc, io_callback, h1], ?_, id, ?_⟩
      · intro c1 hc1
        obtain ⟨q1, g1, g2, g3, -, -⟩ := h2 c1 hc1
        exact ⟨q1, io, g1, g2, g3⟩
      · intro _ c1 hc1
        obtain ⟨q1, g1, -, -, -, g5⟩ := h2 c1 hc1
        refine ⟨c, q, q1, rfl, hq, g1, ?_⟩
        simp only [bytes_written_append, bytes_pushed, List.append_nil, List.append_assoc, g5]
    | post_data chunk hungup writable w =>
      have hwf' := push_align_wf q chunk hwf he
      obtain ⟨p1, oc, eff, h1, h2⟩ := do_work_spec b.p
        { c with output_memblockq := some (pa_memblockq_push_align q chunk) }
        (pa_memblockq_push_align q chunk) io hungup writable w rfl hio hwf'
      refine ⟨{ p := p1, c := oc, out := b.out ++ eff,
                overflowed := b.overflowed || !pa_memblockq_fits q chunk },
        by simp [bridge_step, hc, source_output_process_msg, hq, h1], ?_, ?_, ?_⟩
      · intro c1 hc1
        obtain ⟨q1, g1, g2, g3, -, -⟩ := h2 c1 hc1
        exact ⟨q1, io, g1, g2, g3⟩
      · intro hov
        simp only [Bool.or_eq_false_iff] at hov
        exact hov.1
      · intro hov c1 hc1
        simp only [Bool.or_eq_false_iff, Bool.not_eq_false'] at hov
        obtain ⟨q1, g1, -, -, -, g5⟩ := h2 c1 hc1
        refine ⟨c, q, q1, rfl, hq, g1, ?_⟩
        simp only [bytes_written_append, bytes_pushed, List.append_nil, List.append_assoc, g5,
          push_align_flatten q chunk hov.2]

/-- Any sequence of deliveries on a well-formed streaming state returns, and, absent
overflow, while the connection lives the bytes accepted by the socket followed by the
bytes still queued are the bytes accepted and queued at the start followed by all
bytes pushed since. -/
theorem bridge_run_spec (events : List bridge_event) :
    ∀ b : bridge, bridge_wf b → (∀ e ∈ events, event_wf e) →
      ∃ b1, bridge_run b events = some b1 ∧ bridge_wf b1 ∧
        (b1.overflowed = false → b.overflowed = false) ∧
        (b1.overflowed = false → ∀ c1, b1.c = some c1 →
          ∃ c q q1, b.c = some c ∧ c.output_memblockq = some q ∧
            c1.output_memblockq = some q1 ∧
            bytes_written b1.out ++ q1.chunks.flatten =
              bytes_written b.out ++ q.chunks.flatten ++ bytes_pushed events) := by
  induction events with
  | nil =>
    intro b hb _
    refine ⟨b, rfl, hb, id, ?_⟩
    intro _ c1 hc1
    obtain ⟨q, io, hq, -, -⟩ := hb c1 hc1
    exact ⟨c1, q, q, hc1, hq, hq, by simp [bytes_pushed]⟩
  | cons e rest ih =>
    intro b hb hev
    obtain ⟨b1, s1, s2, s3, s4⟩ :=
      bridge_step_spec b e hb (hev e (List.mem_cons_self _ _))
    obtain ⟨b2, r1, r2, r3, r4⟩ := ih b1 s2 (fun x hx => hev x (List.mem_cons_of_mem _ hx))
    refine ⟨b2, by simp [bridge_run, s1, r1], r2, fun h => s3 (r3 h), ?_⟩
    intro hov c2 hc2
    obtain ⟨c1, q1, q2, g1, g2, g3, g4⟩ := r4 hov c2 hc2
    obtain ⟨c, q, q1', k1, k2, k3, k4⟩ := s4 (r3 hov) c1 g1
    rw [g2] at k3
    cases k3
    refine ⟨c, q, q2, k1, k2, g3, ?_⟩
    rw [g4, k4]
    have hp : bytes_pushed (e :: rest) = bytes_pushed [e] ++ bytes_pushed rest := by
      cases e <;> simp [bytes_pushed]
    rw [hp]
    simp only [List.append_assoc]

/-- C14: write-pump integrity over the byte-FIFO model of the output queue, for a
connection with an iochannel and a well-formed queue. (a) If the socket accepts `r`
bytes, `r` at most the length of the head chunk, the bytes sent are the first `r`
bytes of the queue and the queue afterwards is the old queue without them. (b) On
`EINTR` or `EAGAIN` nothing is sent, the connection and its queue are unchanged and
`do_work` keeps the connection. (c) With an empty queue nothing is written. (d) For
every sequence of pushes and readiness notifications the run returns and, absent
overflow, as long as the connection lives the bytes sent so far followed by the bytes
still queued are the bytes initially queued followed by the bytes pushed, in push
order. -/
theorem C14_write_pump_integrity (p : pa_http_protocol) (c : struct_connection)
    (q : pa_memblockq) (io : Nat)
    (hq : c.output_memblockq = some q) (hio : c.io = some io) (hwf : queue_wf q) :
    (∀ (chunk : List Nat) (rest : List (List Nat)) (r : Nat),
      q.chunks = chunk :: rest → r ≤ chunk.length →
      do_write c (accepts r) =
        some (0, { c with output_memblockq := some (pa_memblockq_drop q r) },
          [pa_iochannel_write io (q.chunks.flatten.take r)]) ∧
      (pa_memblockq_drop q r).chunks.flatten = q.chunks.flatten.drop r) ∧
    (∀ e : errno_t, e = EINTR ∨ e = EAGAIN →
      ∃ eff, do_write c (fails e) = some (0, c, eff) ∧ bytes_written eff = [] ∧
        do_work p c false true (fails e) = some (store_connection p c, some c, eff)) ∧
    (∀ w : write_outcome, q.chunks = [] → do_write c w = some (0, c, [])) ∧
    (∀ events : List bridge_event, (∀ e ∈ events, event_wf e) →
      ∃ b1, bridge_run { p := p, c := some c, out := [], overflowed := false } events
          = some b1 ∧
        (b1.overflowed = false → ∀ c1, b1.c = some c1 →
          ∃ q1, c1.output_memblockq = some q1 ∧
            bytes_written b1.out ++ q1.chunks.flatten =
              q.chunks.flatten ++ bytes_pushed events)) := by
  refine ⟨?_, ?_, ?_, ?_⟩
  · intro chunk rest r hcs hr
    have hne : chunk ≠ [] := hwf chunk (by rw [hcs]; exact List.mem_cons_self _ _)
    have hlen : chunk.length ≠ 0 := fun h => hne (List.length_eq_zero.mp h)
    refine ⟨?_, ?_⟩
    · have htake : (chunk ++ rest.flatten).take r = chunk.take r :=
        List.take_append_of_le_length hr
      simp [do_write, hq, pa_memblockq_peek, hcs, hlen, hio, Nat.min_eq_left hr, htake]
    · simp [pa_memblockq_drop, drop_bytes_flatten]
  · intro e he
    cases hcs : q.chunks with
    | nil =>
      have hw : do_write c (fails e) = some (0, c, []) := by
        simp [do_write, hq, pa_memblockq_peek, hcs]
      exact ⟨[], hw, rfl, by simp [do_work, hio, hw]⟩
    | cons chunk rest =>
      have hne : chunk ≠ [] := hwf chunk (by rw [hcs]; exact List.mem_cons_self _ _)
      have hlen : chunk.length ≠ 0 := fun h => hne (List.length_eq_zero.mp h)
      have hw : do_write c (fails e) = some (0, c, [pa_iochannel_write io []]) := by
        simp [do_write, hq, pa_memblockq_peek, hcs, hlen, hio, he]
      exact ⟨_, hw, by simp [bytes_written], by simp [do_work, hio, hw]⟩
  · intro w hcs
    simp [do_write, hq, pa_memblockq_peek, hcs]
  · intro events hev
    have hb : bridge_wf { p := p, c := some c, out := [], overflowed := false } := by
      intro c0 hc0
      cases hc0
      exact ⟨q, io, hq, hio, hwf⟩
    obtain ⟨b1, r1, -, -, r4⟩ := bridge_run_spec events _ hb hev
    refine ⟨b1, r1, ?_⟩
    intro hov c1 hc1
    obtain ⟨c0, q0, q1, g1, g2, g3, g4⟩ := r4 hov c1 hc1
    cases g1
    rw [hq] at g2
    cases g2
    exact ⟨q1, g3, by simpa [bytes_written] using g4⟩

/-- C14 at the sample stream: a socket that takes two bytes is sent `1 2`, the first
two bytes of the queue, and the queue keeps the other three. -/
theorem C14_write_pump_integrity_witness :
    do_write sample_stream (accepts 2) =
      some (0,
        { sample_stream with
          output_memblockq :=
            some (pa_memblockq_drop { maxlength := 16, chunks := [[1, 2, 3], [4, 5]] } 2) },
        [pa_iochannel_write 5
          ((({ maxlength := 16, chunks := [[1, 2, 3], [4, 5]] } :
            pa_memblockq).chunks.flatten).take 2)]) ∧
    (pa_memblockq_drop { maxlength := 16, chunks := [[1, 2, 3], [4, 5]] } 2).chunks.flatten =
      (({ maxlength := 16, chunks := [[1, 2, 3], [4, 5]] } :
        pa_memblockq).chunks.flatten).drop 2 :=
  (C14_write_pump_integrity { refcnt := 1, connections := [sample_stream] } sample_stream
    { maxlength := 16, chunks := [[1, 2, 3], [4, 5]] } 5 rfl rfl
    (by unfold queue_wf; decide)).1 [1, 2, 3] [[4, 5]] 2 rfl (by decide)

/-- The sample stream through a push and three writes, the second one interrupted:
the socket has received `1 2 3 4`, the queue holds `5 6 7`. -/
theorem sample_stream_run :
    (bridge_run
      { p := { refcnt := 1, connections := [sample_stream] }, c := some sample_stream,
        out := [], overflowed := false }
      [bridge_event.post_data [6, 7] false true (accepts 2),
       bridge_event.io_ready false true (fails EAGAIN),
       bridge_event.io_ready false true (accepts 10),
       bridge_event.io_ready false true (accepts 1)]).map
        (fun b => (bytes_written b.out, b.c.map (fun c => c.output_memblockq), b.overflowed))
      = some ([1, 2, 3, 4],
          some (some { maxlength := 16, chunks := [[5], [6, 7]] }), false) := by
  decide

/-! ## The switch to binary mode -/

/-- The function `line_drain_callback` on a connection with a line reader and a queue:
the send buffer size it asks for is the number of bytes held in the queue at that
moment; afterwards the connection has the raw iochannel and no line reader. -/
theorem line_drain_callback_spec (c : struct_connection) (l : Nat) (q : pa_memblockq)
    (hl : c.line = some l) (hq : c.output_memblockq = some q) :
    line_drain_callback c =
      some ({ c with io := some l, line := none },
        [pa_ioline_detach_iochannel l, pa_iochannel_set_callback l,
         pa_iochannel_socket_set_sndbuf l (pa_memblockq_get_length q),
         pa_ioline_unref l]) := by
  simp [line_drain_callback, hl, hq]

/-- C16: for the stream of a mono 44100 Hz S16 source the queue has capacity
5 × 44100 × 1 × 2 = 441000 bytes, but `line_drain_callback` asks for a send buffer of
`pa_memblockq_get_length` bytes, the current fill: 0 on the fresh queue, 3 when three
bytes are queued. The size follows the fill, not the capacity. The connection does
end up with the raw iochannel and without line reader. -/
theorem C16_sndbuf_is_queue_fill :
    (∃ ss1 cm1,
      mimefy_sample_spec ⟨PA_SAMPLE_S16LE, 44100, 1⟩ ⟨1, [PA_CHANNEL_POSITION_MONO]⟩ =
        some (ss1, cm1) ∧
      fresh_stream.output_memblockq = some (new_output_memblockq ss1) ∧
      (new_output_memblockq ss1).maxlength = 441000) ∧
    line_drain_callback fresh_stream =
      some ({ fresh_stream with io := some 5, line := none },
        [pa_ioline_detach_iochannel 5, pa_iochannel_set_callback 5,
         pa_iochannel_socket_set_sndbuf 5 0, pa_ioline_unref 5]) ∧
    line_drain_callback
        { fresh_stream with
          output_memblockq := some { maxlength := 441000, chunks := [[1, 2, 3]] } } =
      some ({ fresh_stream with
              output_memblockq := some { maxlength := 441000, chunks := [[1, 2, 3]] },
              io := some 5, line := none },
        [pa_ioline_detach_iochannel 5, pa_iochannel_set_callback 5,
         pa_iochannel_socket_set_sndbuf 5 3, pa_ioline_unref 5]) := by
  refine ⟨⟨_, _, rfl, by decide, by decide⟩, by decide, by decide⟩

end ProtocolHttp
